import Mathlib

/-!
Shallow embedding of the techno-economic analysis code in `Technology.py`
and `Scenario.py`.  Tabular datasets are lists of rows, pandas filters and
merges are list filters and joins, and Python float arithmetic is modelled
with exact rationals.  Scalar financial parameters that the source reads
with `.values` and immediately uses as scalars are modelled as "first
matching row, defaulting to 0"; a pandas left-merge that would produce NaN
for a missing unit price is modelled with price 0 (these defaults are only
exercised on degenerate tables).  `sys.exit` on a missing technology or
product, and the pandas `IndexError` raised by `.values[0]` on an empty
frame, are modelled with `Except`.
-/

namespace TEA

/-- A row of the Design sheet: (Technology, Variable, Index, Value). -/
structure DRow where
  Technology : String
  Variable : String
  Index : String
  Value : ℚ
  deriving DecidableEq

/-- A row of the Financial sheet: (Category, Variable, Index, Value). -/
structure FRow where
  Category : String
  Variable : String
  Index : String
  Value : ℚ
  deriving DecidableEq

/-- A row of the Structure sheet: (Technology, Downstream). -/
structure SRow where
  Technology : String
  Downstream : String
  deriving DecidableEq

/-- A row of the production-amounts frame built by `Technology.production`. -/
structure OutRow where
  Index : String
  Actual : ℚ
  Theoretical : ℚ
  deriving DecidableEq

/-- Errors with which an evaluation can abort: the two `sys.exit` calls in
`Technology.__init__`, and a pandas `IndexError` from `.values[0]` on an
empty frame. -/
inductive TErr where
  | technologyNotFound
  | productNotFound
  | indexError
  deriving DecidableEq

/-- `Bool` test for a successful `Except` result. -/
def isOkE {α : Type} (x : Except TErr α) : Bool :=
  match x with
  | .ok _ => true
  | .error _ => false

/-- The error of a failed `Except` result, if any. -/
def errOf {α : Type} (x : Except TErr α) : Option TErr :=
  match x with
  | .ok _ => none
  | .error e => some e

/-- Pandas inner merge of two (Index, Value) frames on `Index`:
for each left row, one output row per matching right row. -/
def joinOn (xs ys : List (String × ℚ)) : List (String × ℚ × ℚ) :=
  xs.flatMap fun x => (ys.filter fun y => y.1 = x.1).map fun y => (x.1, x.2, y.2)

/-- Pandas left merge of two (Index, Value) frames on `Index`; a left row
with no match is kept, its right value (NaN in pandas) modelled as 0. -/
def joinLeftD (xs ys : List (String × ℚ)) : List (String × ℚ × ℚ) :=
  xs.flatMap fun x =>
    match ys.filter fun y => y.1 = x.1 with
    | [] => [(x.1, x.2, 0)]
    | ms => ms.map fun y => (x.1, x.2, y.2)

/-- First value of a list, 0 when empty: models a `.values` lookup used in
scalar position. -/
def firstValD (l : List ℚ) : ℚ := l.headD 0

/-- `design_data.loc[design_data.Technology == name]`. -/
def designOf (design : List DRow) (name : String) : List DRow :=
  design.filter fun r => r.Technology = name

/-- `self.design.Index.loc[self.design.Variable == 'Output']`. -/
def outIdxOf (designT : List DRow) : List String :=
  (designT.filter fun r => r.Variable = "Output").map fun r => r.Index

/-- The in-place zeroing performed by `Technology.__init__` when
`initial` is false: rows with Category `Cost`, Variable `Input` and Index
in {Nylon 6, Polyethylene} get Value 0. -/
def zeroRecycledRule (r : FRow) : FRow :=
  if r.Category = "Cost" ∧ r.Variable = "Input" ∧
      r.Index ∈ (["Nylon 6", "Polyethylene"] : List String) then
    { r with Value := 0 }
  else r

/-- The financial table as seen by all computations of one `Technology`
construction: unchanged when `initial` is true, zeroed as above otherwise. -/
def mutFinOf (fin : List FRow) (initial : Bool) : List FRow :=
  if initial then fin else fin.map zeroRecycledRule

/-- `self.finan.Value.loc[self.finan.Variable == 'Operating Hours'].values`. -/
def opHrsOf (fin : List FRow) : ℚ :=
  firstValD ((fin.filter fun r => r.Variable = "Operating Hours").map fun r => r.Value)

/-- (Index, Value) projection of a design row. -/
def pairIV (r : DRow) : String × ℚ := (r.Index, r.Value)

/-- (Index, Value) projection of a financial row. -/
def fpairIV (r : FRow) : String × ℚ := (r.Index, r.Value)

/-- The `_cap_cost` frame of `Technology.capital`: Capital-scale design rows
left-merged with Capital financial rows; third component is the unit cost. -/
def capCostOf (designT : List DRow) (mutFin : List FRow) : List (String × ℚ × ℚ) :=
  joinLeftD ((designT.filter fun r => r.Variable = "Capital scale").map pairIV)
    ((mutFin.filter fun r => r.Variable = "Capital").map fpairIV)

/-- `1 +` the Installation multiplier. -/
def instMultOf (mutFin : List FRow) : ℚ :=
  1 + firstValD ((mutFin.filter fun r => r.Index = "Installation").map fun r => r.Value)

/-- One-time costs from `Technology.capital()[0]`. -/
def onetimeCosts (designT : List DRow) (mutFin : List FRow) : List (String × ℚ) :=
  let capCost := capCostOf designT mutFin
  let instM := instMultOf mutFin
  [("Capital Purchased", (capCost.map fun c => c.2.1 * c.2.2).sum),
   ("Capital Installed", (capCost.map fun c => instM * (c.2.1 * c.2.2)).sum)]

/-- Annual capital costs from `Technology.capital()[1]`: straight-line
annualized installed cost plus maintenance. -/
def capitalAnnual (designT : List DRow) (mutFin : List FRow) : List (String × ℚ) :=
  let capCost := capCostOf designT mutFin
  let instM := instMultOf mutFin
  let depRows := (designT.filter fun r => r.Variable = "Capital depreciation").map pairIV
  let capAnn := capCost.flatMap fun c =>
    (depRows.filter fun d2 => d2.1 = c.1).map fun d2 => instM * (c.2.1 * c.2.2) / d2.2
  let maintM := firstValD ((mutFin.filter fun r => r.Index = "Maintenance").map fun r => r.Value)
  [("Capital, Annualized", capAnn.sum),
   ("Maintenance", (capCost.map fun c => maintM * (c.2.1 * c.2.2)).sum)]

/-- The `_mats` frame of `Technology.raw_material` (also reused by
`Technology.wastes` for the landfilling technology). -/
def matsOf (designT : List DRow) (mutFin : List FRow) : List (String × ℚ × ℚ) :=
  joinOn ((designT.filter fun r => r.Variable = "Input" ∧ r.Index ≠ "Contingency").map pairIV)
    ((mutFin.filter fun r => r.Variable = "Input").map fpairIV)

/-- Annual raw-material costs from `Technology.raw_material`. -/
def rawMaterialCosts (name : String) (designT : List DRow) (mutFin : List FRow)
    (opHrs : ℚ) : List (String × ℚ) :=
  let mats := matsOf designT mutFin
  if name = "Landfilling" then
    [("Raw Material", 0), ("Barrier Film", 0)]
  else
    [("Raw Material",
      ((mats.filter fun c => c.1 ≠ "Barrier film").map fun c => c.2.1 * c.2.2).sum * opHrs),
     ("Barrier Film",
      ((mats.filter fun c => c.1 = "Barrier film").map fun c => c.2.1 * c.2.2).sum * opHrs)]

/-- Annual burdened labor cost from `Technology.labor`. -/
def laborCosts (designT : List DRow) (mutFin : List FRow) : List (String × ℚ) :=
  let lab := joinOn ((designT.filter fun r => r.Variable = "Labor").map pairIV)
    ((mutFin.filter fun r => r.Variable = "Labor").map fpairIV)
  let workHrs := firstValD ((mutFin.filter fun r => r.Variable = "Working Hours").map fun r => r.Value)
  let burden := firstValD
    ((mutFin.filter fun r => r.Category = "Cost Multiplier" ∧ r.Variable = "Labor").map fun r => r.Value)
  [("Labor", (lab.map fun c => c.2.1 * c.2.2).sum * workHrs * (1 + burden))]

/-- Annual utility cost from `Technology.utilities`. -/
def utilityCosts (designT : List DRow) (mutFin : List FRow) (opHrs : ℚ) : List (String × ℚ) :=
  let util := joinOn ((designT.filter fun r => r.Variable = "Utilities").map pairIV)
    ((mutFin.filter fun r => r.Variable = "Utilities").map fpairIV)
  [("Utilities", (util.map fun c => c.2.1 * c.2.2).sum * opHrs)]

/-- Annual waste-disposal cost from `Technology.wastes`: reject fraction of
output at the tipping fee, except that the landfilling technology instead
prices its raw-material inputs. -/
def wasteCosts (name : String) (designT : List DRow) (mutFin : List FRow)
    (opHrs : ℚ) : List (String × ℚ) :=
  let w := joinOn ((designT.filter fun r => r.Variable = "Output").map pairIV)
    ((designT.filter fun r => r.Variable = "Output efficiency").map pairIV)
  let tip := firstValD ((mutFin.filter fun r => r.Index = "Waste disposal").map fun r => r.Value)
  if name = "Landfilling" then
    [("Waste disposal", ((matsOf designT mutFin).map fun c => c.2.1 * c.2.2).sum * opHrs)]
  else
    [("Waste Disposal", (w.map fun c => tip * c.2.1 * (1 - c.2.2)).sum * opHrs)]

/-- Contingency cost from `Technology.other_costs`. -/
def otherCosts (designT : List DRow) (mutFin : List FRow) (opHrs : ℚ) : List (String × ℚ) :=
  let con := joinOn ((designT.filter fun r => r.Index = "Contingency").map pairIV)
    ((mutFin.filter fun r => r.Index = "Contingency").map fpairIV)
  if con = [] then [("Contingency", 0)]
  else con.map fun c => (c.1, c.2.1 * c.2.2 * opHrs)

/-- All annualized costs, concatenated in the order of `Technology.__init__`. -/
def annualCosts (name : String) (designT : List DRow) (mutFin : List FRow)
    (opHrs : ℚ) : List (String × ℚ) :=
  capitalAnnual designT mutFin ++ rawMaterialCosts name designT mutFin opHrs ++
    laborCosts designT mutFin ++ utilityCosts designT mutFin opHrs ++
    wasteCosts name designT mutFin opHrs ++ otherCosts designT mutFin opHrs

/-- `Technology.production`: if the technology has any Output-efficiency row,
Output rows are inner-merged with the efficiency rows on Index (rows with no
match are dropped); otherwise every Output row appears with efficiency 1. -/
def production (designT : List DRow) (opHrs : ℚ) : List OutRow :=
  let outs := (designT.filter fun r => r.Variable = "Output").map pairIV
  let effs := (designT.filter fun r => r.Variable = "Output efficiency").map pairIV
  if (designT.filter fun r => r.Variable = "Output efficiency") = [] then
    outs.map fun o => ⟨o.1, o.2 * opHrs, o.2 * opHrs⟩
  else
    outs.flatMap fun o =>
      (effs.filter fun e2 => e2.1 = o.1).map fun e2 => ⟨o.1, o.2 * e2.2 * opHrs, o.2 * opHrs⟩

/-- `Technology.product_revenue`: revenue from the primary product only. -/
def productRevenue (product : String) (prodAm : List OutRow)
    (mutFin : List FRow) : List (String × ℚ) :=
  let out := prodAm.filter fun o => o.Index = product
  if out = [] then []
  else
    let prices := (mutFin.filter fun r => r.Variable = "Output").map fpairIV
    out.flatMap fun o =>
      match prices.filter fun p2 => p2.1 = o.Index with
      | [] => [(o.Index, 0)]
      | ms => ms.map fun p2 => (o.Index, p2.2 * o.Actual)

/-- `Technology.coproduct_revenue`: revenue from every non-primary output. -/
def coproductRevenue (product : String) (prodAm : List OutRow)
    (mutFin : List FRow) : List (String × ℚ) :=
  let out := prodAm.filter fun o => o.Index ≠ product
  if out = [] then []
  else
    let prices := (mutFin.filter fun r => r.Variable = "Output").map fpairIV
    out.flatMap fun o =>
      match prices.filter fun p2 => p2.1 = o.Index with
      | [] => [(o.Index, 0)]
      | ms => ms.map fun p2 => (o.Index, p2.2 * o.Actual)

/-- The technologies whose revenue comes from co-products only
(`Technology.__init__`, revenue branch). -/
def primaryProducers : List String :=
  ["Barrier Film", "Mechanical and Solvent Cleaning", "Solvent Treatment and Precipitation"]

/-- The evaluated state of one `Technology` instance. -/
structure Tech where
  name : String
  product : String
  output : ℚ
  onetime_costs : List (String × ℚ)
  annual_costs : List (String × ℚ)
  output_amounts : List OutRow
  normalized_costs : List (String × ℚ)
  annual_revenue : List (String × ℚ)
  normalized_revenue : List (String × ℚ)
  net_normalized_costs : ℚ
  production_cost : ℚ

/-- Assemble all TEA result fields of a `Technology`, given the nonempty
production frame and the Actual amount of its first row (the divisor
`self.output_amounts.Actual.values[0]` used for normalization). -/
def mkTech (name product : String) (output : ℚ) (designT : List DRow)
    (mutFin : List FRow) (opHrs : ℚ) (prodAm : List OutRow) (a0 : ℚ) : Tech :=
  let annual := annualCosts name designT mutFin opHrs
  let annRev :=
    if name ∈ primaryProducers then coproductRevenue product prodAm mutFin
    else productRevenue product prodAm mutFin
  let normCosts := annual.map fun c => (c.1, c.2 / a0)
  let normRev := annRev.map fun c => (c.1, c.2 / a0)
  let net := (normCosts.map fun c => c.2).sum - (normRev.map fun c => c.2).sum
  { name := name
    product := product
    output := output
    onetime_costs := onetimeCosts designT mutFin
    annual_costs := annual
    output_amounts := prodAm
    normalized_costs := normCosts
    annual_revenue := annRev
    normalized_revenue := normRev
    net_normalized_costs := net
    production_cost := output * net }

/-- `Technology.__init__`: check that the technology and product exist, apply
the non-initial zeroing to the shared financial table, run all TEA
computations, and return the instance together with the financial table as
left behind (the in-place mutated `self.finan`). -/
def evalTechnology (name product : String) (design : List DRow) (fin : List FRow)
    (initial : Bool) (output : ℚ) : Except TErr (Tech × List FRow) :=
  let designT := designOf design name
  if designT = [] then .error .technologyNotFound
  else if product ∉ outIdxOf designT then .error .productNotFound
  else
    let mutFin := mutFinOf fin initial
    let opHrs := opHrsOf mutFin
    match production designT opHrs with
    | [] => .error .indexError
    | o0 :: rest =>
      .ok (mkTech name product output designT mutFin opHrs (o0 :: rest) o0.Actual, mutFin)

/-- `... .loc[(Technology == tech) & (Variable == 'Output efficiency')].Value.values[0]`;
an empty selection raises `IndexError` in the source. -/
def effOf (design : List DRow) (tech : String) : Except TErr ℚ :=
  match (design.filter fun r => r.Technology = tech ∧ r.Variable = "Output efficiency").head? with
  | some r => .ok r.Value
  | none => .error .indexError

/-- `self.struct.Downstream.loc[self.struct.Technology == tech].values[0]`. -/
def downstreamOf (sdata : List SRow) (tech : String) : Except TErr String :=
  match (sdata.filter fun r => r.Technology = tech).head? with
  | some r => .ok r.Downstream
  | none => .error .indexError

/-- `1 + sum([r**i for i in range(n+1)])`: the denominator of the closed-loop
mass-balance formulas in `Scenario.__init__`. -/
def geomDen (r : ℚ) (n : ℕ) : ℚ := 1 + ∑ i ∈ Finset.range (n + 1), r ^ i

/-- `_virg_prod` for a closed-loop entry with per-cycle rate `r`. -/
def virgClosed (f FU r : ℚ) (n : ℕ) : ℚ := f * FU / geomDen r n

/-- `_prod_masc` / `_prod_strap`: total amount processed through the loop. -/
def prodClosed (f FU r : ℚ) (n : ℕ) : ℚ :=
  ∑ i ∈ Finset.range (n + 1), f * FU * r ^ i / geomDen r n

/-- Mass-balance state accumulated by the first loop of `Scenario.__init__`:
`_virg_prod`, `_prod_masc`, `_prod_strap`, `_prod_amt`. -/
structure MB where
  virg : ℚ
  masc : ℚ
  strap : ℚ
  amt : ℚ

/-- One iteration of the first loop of `Scenario.__init__` over `eol_sc`. -/
def loop1Step (design : List DRow) (sdata : List SRow) (FU : ℚ) (st : MB)
    (x : String × ℚ × ℕ) : Except TErr MB :=
  match effOf design x.1 with
  | .error e => .error e
  | .ok e =>
    if x.1 = "Mechanical and Solvent Cleaning" then
      .ok { st with virg := virgClosed x.2.1 FU e x.2.2, masc := prodClosed x.2.1 FU e x.2.2 }
    else if x.1 = "Solvent Treatment and Precipitation" then
      match downstreamOf sdata x.1 with
      | .error e2 => .error e2
      | .ok d =>
        match effOf design d with
        | .error e2 => .error e2
        | .ok eD =>
          .ok { st with virg := virgClosed x.2.1 FU (eD * e) x.2.2,
                        strap := prodClosed x.2.1 FU (eD * e) x.2.2 }
    else
      .ok { st with amt := st.amt + FU * x.2.1, virg := FU }

/-- The first loop of `Scenario.__init__`. -/
def runLoop1 (design : List DRow) (sdata : List SRow) (FU : ℚ) :
    MB → List (String × ℚ × ℕ) → Except TErr MB
  | st, [] => .ok st
  | st, x :: l =>
    match loop1Step design sdata FU st x with
    | .error e => .error e
    | .ok st' => runLoop1 design sdata FU st' l

/-- An observable event of `Scenario.__init__`, in execution order: a
`Technology` construction recording the financial table passed to it, or the
in-place overwrite of the Barrier film financial rows. -/
inductive Event where
  | evaluation (name product : String) (initial : Bool) (output : ℚ)
      (financial : List FRow)
  | overwrite (price : ℚ)

/-- The financial table an evaluation event received, if the event is one. -/
def evFin (ev : Event) : Option (List FRow) :=
  match ev with
  | .evaluation _ _ _ _ f => some f
  | .overwrite _ => none

/-- `self.finan.loc[self.finan.Index == 'Barrier film', 'Value'] = v`. -/
def overwriteBF (fin : List FRow) (v : ℚ) : List FRow :=
  fin.map fun r => if r.Index = "Barrier film" then { r with Value := v } else r

/-- State threaded through the second loop of `Scenario.__init__`: the value
chain, the event trace, the shared financial table, `_film_to_landfill`,
`eol_film_prod` and `eol_polyethylene_prod`. -/
structure ChainSt where
  chain : List Tech
  events : List Event
  fin : List FRow
  ftl : ℚ
  film : ℚ
  poly : ℚ

/-- The EOL technologies that are terminal sinks. -/
def terminalSinks : List String := ["Landfilling", "Incineration", "Pyrolysis"]

/-- The trailing `if _film_to_landfill != 0.0` block of the second loop:
evaluate a final landfilling step sized to the leftover film and rename it. -/
def finalLandfillStep (design : List DRow) (st : ChainSt) : Except TErr ChainSt :=
  if st.ftl = 0 then .ok st
  else
    match evalTechnology "Landfilling" "Landfilled waste" design st.fin true st.ftl with
    | .error e => .error e
    | .ok (lf, fin') =>
      .ok { st with
        chain := st.chain ++ [{ lf with name := "Landfilling, final" }],
        events := st.events ++ [Event.evaluation "Landfilling" "Landfilled waste" true st.ftl st.fin],
        fin := fin' }

/-- One iteration of the second loop of `Scenario.__init__`: instantiate the
EOL technology (plus, for Solvent Treatment and Precipitation, the downstream
barrier-film regeneration step followed by the Barrier film price overwrite),
then the final landfilling step if leftover film is nonzero. -/
def loop2Step (design : List DRow) (sdata : List SRow) (FU virg masc strap : ℚ)
    (products : String → String) (st : ChainSt) (x : String × ℚ × ℕ) :
    Except TErr ChainSt :=
  match effOf design x.1 with
  | .error e => .error e
  | .ok e =>
    if x.1 = "Mechanical and Solvent Cleaning" then
      match evalTechnology x.1 (products x.1) design st.fin true masc with
      | .error e2 => .error e2
      | .ok (t, fin') =>
        finalLandfillStep design
          { st with
            chain := st.chain ++ [t],
            events := st.events ++ [Event.evaluation x.1 (products x.1) true masc st.fin],
            fin := fin', film := masc, poly := 0,
            ftl := virg * x.2.1 * e ^ x.2.2 }
    else if x.1 = "Solvent Treatment and Precipitation" then
      match downstreamOf sdata x.1 with
      | .error e2 => .error e2
      | .ok d =>
        match effOf design d with
        | .error e2 => .error e2
        | .ok eD =>
          match evalTechnology x.1 (products x.1) design st.fin true (7/10 * strap / eD) with
          | .error e2 => .error e2
          | .ok (t, fin1) =>
            match evalTechnology d "Barrier film" design fin1 false strap with
            | .error e2 => .error e2
            | .ok (tD, fin2) =>
              finalLandfillStep design
                { st with
                  chain := st.chain ++ [t, tD],
                  events := st.events ++
                    [Event.evaluation x.1 (products x.1) true (7/10 * strap / eD) st.fin,
                     Event.evaluation d "Barrier film" false strap fin1,
                     Event.overwrite tD.net_normalized_costs],
                  fin := overwriteBF fin2 tD.net_normalized_costs,
                  film := strap, poly := 7/10 * strap / eD,
                  ftl := virg * x.2.1 * (e * eD) ^ x.2.2 }
    else
      match evalTechnology x.1 (products x.1) design st.fin true (FU * x.2.1) with
      | .error e2 => .error e2
      | .ok (t, fin') =>
        finalLandfillStep design
          { st with
            chain := st.chain ++ [t],
            events := st.events ++ [Event.evaluation x.1 (products x.1) true (FU * x.2.1) st.fin],
            fin := fin', film := FU * x.2.1, poly := 0,
            ftl := if x.1 ∈ terminalSinks then 0 else virg * x.2.1 * e }

/-- The second loop of `Scenario.__init__`. -/
def runLoop2 (design : List DRow) (sdata : List SRow) (FU virg masc strap : ℚ)
    (products : String → String) :
    ChainSt → List (String × ℚ × ℕ) → Except TErr ChainSt
  | st, [] => .ok st
  | st, x :: l =>
    match loop2Step design sdata FU virg masc strap products st x with
    | .error e => .error e
    | .ok st' => runLoop2 design sdata FU virg masc strap products st' l

/-- The scenario-level result attributes of `Scenario.__init__`. -/
structure Scenario where
  value_chain : List Tech
  total_eol_cost : ℚ
  total_cost : ℚ
  virgin_prod : ℚ
  final_landfill : ℚ
  eol_film_prod : ℚ
  eol_polyethylene_prod : ℚ
  events : List Event
  finan : List FRow

/-- Initial second-loop state: the initial virgin-production instance with
its name suffixed `', initial'`, and its construction event. -/
def chainSt0 (pp prod : String) (virg : ℚ) (finOrig fin0 : List FRow) (t0 : Tech) : ChainSt :=
  { chain := [{ t0 with name := pp ++ ", initial" }],
    events := [Event.evaluation pp prod true virg finOrig],
    fin := fin0, ftl := 0, film := 0, poly := 0 }

/-- Assemble the scenario attributes from the mass-balance result and the
final second-loop state (lines 269-278 of `Scenario.py`). -/
def scenarioOf (mb : MB) (stF : ChainSt) : Scenario :=
  { value_chain := stF.chain,
    total_eol_cost :=
      ((stF.chain.filter fun t =>
          t.name ∉ (["Sheet Molding Compound", "Barrier Film, initial"] : List String)).map
        fun t => t.production_cost).sum,
    total_cost := (stF.chain.map fun t => t.production_cost).sum,
    virgin_prod := mb.virg,
    final_landfill := stF.ftl,
    eol_film_prod := stF.film,
    eol_polyethylene_prod := stF.poly,
    events := stF.events,
    finan := stF.fin }

/-- `Scenario.__init__`: look up the production-process efficiency (line 112),
solve the mass balance (first loop), build the initial virgin-production
instance, run the second loop over the EOL allocation, and assemble the
scenario attributes.  `eol_sc` is the EOL allocation in dict iteration
order; `products` maps each EOL technology to its primary product. -/
def buildScenario (pp prod : String) (FU : ℚ) (eol_sc : List (String × ℚ × ℕ))
    (products : String → String) (design : List DRow) (fin : List FRow)
    (sdata : List SRow) : Except TErr Scenario :=
  match effOf design pp with
  | .error e => .error e
  | .ok _ =>
    match runLoop1 design sdata FU ⟨0, 0, 0, 0⟩ eol_sc with
    | .error e => .error e
    | .ok mb =>
      match evalTechnology pp prod design fin true mb.virg with
      | .error e => .error e
      | .ok (t0, fin0) =>
        match runLoop2 design sdata FU mb.virg mb.masc mb.strap products
            (chainSt0 pp prod mb.virg fin fin0 t0) eol_sc with
        | .error e => .error e
        | .ok stF => .ok (scenarioOf mb stF)

/-! Small concrete datasets, shaped like the TEA-data workbook, used to
evaluate the embedded code on explicit inputs. -/

/-- Sample design table: every technology a scenario can touch has an
Output-efficiency row (the mass-balance loops look one up for each key). -/
def sampleDesign : List DRow :=
  [⟨"Barrier Film", "Output efficiency", "Barrier film", 1⟩,
   ⟨"Barrier Film", "Output", "Barrier film", 1⟩,
   ⟨"Mechanical and Solvent Cleaning", "Output efficiency", "Clean film", 1/2⟩,
   ⟨"Mechanical and Solvent Cleaning", "Output", "Clean film", 1⟩,
   ⟨"Solvent Treatment and Precipitation", "Output efficiency", "PE resin", 1/2⟩,
   ⟨"Solvent Treatment and Precipitation", "Output", "PE resin", 1⟩,
   ⟨"Landfilling", "Output efficiency", "Landfilled waste", 1⟩,
   ⟨"Landfilling", "Output", "Landfilled waste", 1⟩,
   ⟨"Incineration", "Output efficiency", "Energy", 1⟩,
   ⟨"Incineration", "Output", "Energy", 1⟩]

/-- `sampleDesign` with the Mechanical and Solvent Cleaning efficiency set
to exactly 1. -/
def sampleDesignMASC1 : List DRow :=
  [⟨"Barrier Film", "Output efficiency", "Barrier film", 1⟩,
   ⟨"Barrier Film", "Output", "Barrier film", 1⟩,
   ⟨"Mechanical and Solvent Cleaning", "Output efficiency", "Clean film", 1⟩,
   ⟨"Mechanical and Solvent Cleaning", "Output", "Clean film", 1⟩,
   ⟨"Landfilling", "Output efficiency", "Landfilled waste", 1⟩,
   ⟨"Landfilling", "Output", "Landfilled waste", 1⟩]

/-- `sampleDesign` with the Solvent Treatment and Precipitation efficiency
set to exactly 1 (so the combined two-stage rate is 1). -/
def sampleDesignSTP1 : List DRow :=
  [⟨"Barrier Film", "Output efficiency", "Barrier film", 1⟩,
   ⟨"Barrier Film", "Output", "Barrier film", 1⟩,
   ⟨"Solvent Treatment and Precipitation", "Output efficiency", "PE resin", 1⟩,
   ⟨"Solvent Treatment and Precipitation", "Output", "PE resin", 1⟩,
   ⟨"Landfilling", "Output efficiency", "Landfilled waste", 1⟩,
   ⟨"Landfilling", "Output", "Landfilled waste", 1⟩]

/-- Sample financial table with exactly one row for each scalar parameter. -/
def sampleFin : List FRow :=
  [⟨"Parameter", "Operating Hours", "Plant", 1⟩,
   ⟨"Parameter", "Working Hours", "Plant", 1⟩,
   ⟨"Cost Multiplier", "Multiplier", "Installation", 0⟩,
   ⟨"Cost Multiplier", "Multiplier", "Maintenance", 0⟩,
   ⟨"Cost", "Waste", "Waste disposal", 2⟩,
   ⟨"Cost Multiplier", "Labor", "Burden", 1/2⟩,
   ⟨"Cost", "Input", "Nylon 6", 3⟩,
   ⟨"Cost", "Input", "Polyethylene", 4⟩,
   ⟨"Cost", "Input", "Barrier film", 5⟩,
   ⟨"Cost", "Input", "X", 4⟩]

/-- Sample structure table: the downstream of the solvent loop is barrier
film production. -/
def sampleStruct : List SRow :=
  [⟨"Solvent Treatment and Precipitation", "Barrier Film"⟩]

/-- Sample primary-product map for the EOL technologies. -/
def sampleProducts : String → String := fun k =>
  if k = "Mechanical and Solvent Cleaning" then "Clean film"
  else if k = "Solvent Treatment and Precipitation" then "PE resin"
  else if k = "Incineration" then "Energy"
  else "Landfilled waste"

/-- Design rows for a technology whose first Output line (A) is not its
primary product (P), with one priced input. -/
def designFirstOut : List DRow :=
  [⟨"T", "Output", "A", 2⟩,
   ⟨"T", "Output", "P", 3⟩,
   ⟨"T", "Output efficiency", "A", 1⟩,
   ⟨"T", "Output efficiency", "P", 1⟩,
   ⟨"T", "Input", "X", 1⟩]

/-- Design rows where both required rows exist (technology T, product P among
its Output lines) but no Output line has a matching efficiency row. -/
def designNoMatch : List DRow :=
  [⟨"T", "Output", "P", 1⟩,
   ⟨"T", "Output efficiency", "Q", 1⟩]

/-- Design rows with two Output lines of which only one has an efficiency
row. -/
def designDropQ : List DRow :=
  [⟨"T", "Output", "P", 1⟩,
   ⟨"T", "Output", "Q", 1⟩,
   ⟨"T", "Output efficiency", "P", 1⟩]

end TEA

namespace TEA

lemma evalTechnology_ok {name product : String} {design : List DRow} {fin : List FRow}
    {initial : Bool} {output : ℚ} {t : Tech} {fin2 : List FRow}
    (h : evalTechnology name product design fin initial output = .ok (t, fin2)) :
    designOf design name ≠ [] ∧ product ∈ outIdxOf (designOf design name) ∧
      fin2 = mutFinOf fin initial ∧
      ∃ o0 rest,
        production (designOf design name) (opHrsOf (mutFinOf fin initial)) = o0 :: rest ∧
        t = mkTech name product output (designOf design name) (mutFinOf fin initial)
              (opHrsOf (mutFinOf fin initial)) (o0 :: rest) o0.Actual := by
  unfold evalTechnology at h
  dsimp only at h
  split_ifs at h with h1 h2
  refine ⟨h1, by simpa using h2, ?_⟩
  revert h
  split
  · intro h; exact absurd h (by simp)
  · rename_i o0 rest hp
    intro h
    obtain ⟨ht, hf⟩ := Prod.mk.injEq .. ▸ (Except.ok.inj h)
    exact ⟨hf.symm, o0, rest, hp, ht.symm⟩

lemma evalTechnology_fields {name product : String} {design : List DRow} {fin : List FRow}
    {initial : Bool} {output : ℚ} {t : Tech} {fin2 : List FRow}
    (h : evalTechnology name product design fin initial output = .ok (t, fin2)) :
    t.name = name ∧ t.product = product ∧ t.output = output := by
  obtain ⟨-, -, -, o0, rest, -, ht⟩ := evalTechnology_ok h
  subst ht
  exact ⟨rfl, rfl, rfl⟩

lemma evalTechnology_fin_true {name product : String} {design : List DRow} {fin : List FRow}
    {output : ℚ} {t : Tech} {fin2 : List FRow}
    (h : evalTechnology name product design fin true output = .ok (t, fin2)) :
    fin2 = fin := by
  obtain ⟨-, -, hf, -⟩ := evalTechnology_ok h
  simpa [mutFinOf] using hf

/-- C3 (amended): every normalized cost and revenue line is the annual value
divided by the Actual amount of the FIRST line of the production table (the
primary product only when it happens to be listed first); net normalized
cost is the cost sum minus the revenue sum, and the production cost is the
required output times the net normalized cost. -/
theorem normalization_first_output (name product : String) (design : List DRow)
    (fin : List FRow) (initial : Bool) (output : ℚ) (t : Tech) (fin2 : List FRow)
    (h : evalTechnology name product design fin initial output = .ok (t, fin2)) :
    ∃ o0 rest, t.output_amounts = o0 :: rest ∧
      t.normalized_costs = t.annual_costs.map (fun c => (c.1, c.2 / o0.Actual)) ∧
      t.normalized_revenue = t.annual_revenue.map (fun c => (c.1, c.2 / o0.Actual)) ∧
      t.net_normalized_costs =
        (t.normalized_costs.map fun c => c.2).sum -
          (t.normalized_revenue.map fun c => c.2).sum ∧
      t.production_cost = t.output * t.net_normalized_costs := by
  obtain ⟨-, -, -, o0, rest, hp, ht⟩ := evalTechnology_ok h
  subst ht
  exact ⟨o0, rest, rfl, rfl, rfl, rfl, rfl⟩

/-- The k-th normalized cost line of an evaluation result. -/
def nthNorm (r : Except TErr (Tech × List FRow)) (k : ℕ) : Option (String × ℚ) :=
  r.toOption.bind fun p => p.1.normalized_costs.get? k

/-- The k-th annual cost line of an evaluation result. -/
def nthAnn (r : Except TErr (Tech × List FRow)) (k : ℕ) : Option (String × ℚ) :=
  r.toOption.bind fun p => p.1.annual_costs.get? k

/-- The Actual production amount an evaluation result records for a given
output index. -/
def actualAmountOf (r : Except TErr (Tech × List FRow)) (idx : String) : Option ℚ :=
  r.toOption.bind fun p =>
    ((p.1.output_amounts.filter fun o => o.Index = idx).map fun o => o.Actual).head?

set_option maxHeartbeats 4000000 in
/-- C3 counterexample: for a technology whose first Output line (A, actual
amount 2) is not the primary product (P, actual amount 3), the normalized
Raw Material cost is 4/2 = 2, not the 4/3 the claim's divisor (the actual
amount of the primary product) would give. -/
theorem normalization_first_output_cex :
    nthNorm (evalTechnology "T" "P" designFirstOut sampleFin true 1) 2 =
      some ("Raw Material", 2) ∧
    nthAnn (evalTechnology "T" "P" designFirstOut sampleFin true 1) 2 =
      some ("Raw Material", 4) ∧
    actualAmountOf (evalTechnology "T" "P" designFirstOut sampleFin true 1) "P" = some 3 ∧
    (2 : ℚ) ≠ 4 / 3 := by
  refine ⟨?_, ?_, ?_, by norm_num⟩ <;>
    simp [nthNorm, nthAnn, actualAmountOf, evalTechnology, designFirstOut, sampleFin,
      designOf, outIdxOf, mutFinOf, opHrsOf, production, mkTech, annualCosts, capitalAnnual,
      capCostOf, instMultOf, rawMaterialCosts, matsOf, laborCosts, utilityCosts, wasteCosts,
      otherCosts, joinOn, joinLeftD, firstValD, pairIV, fpairIV, primaryProducers,
      productRevenue, coproductRevenue, Except.toOption] <;> norm_num

/-- C5: constructing a Technology with `initial = false` sets Value to 0
exactly on the shared financial table's rows with Category Cost, Variable
Input and Index among Nylon 6 and Polyethylene, leaves every other row (and
every other field) unchanged, and the returned table - the one subsequent
evaluations receive - shows those rows as 0; with `initial = true` the
financial table is returned unchanged. -/
theorem noninitial_zeroes_recycled_inputs :
    (∀ (name product : String) (design : List DRow) (fin : List FRow) (output : ℚ)
        (t : Tech) (fin2 : List FRow),
      evalTechnology name product design fin false output = .ok (t, fin2) →
      fin2.length = fin.length ∧
      (∀ i (hi : i < fin.length) (hi2 : i < fin2.length),
        ((fin.get ⟨i, hi⟩).Category = "Cost" ∧ (fin.get ⟨i, hi⟩).Variable = "Input" ∧
            (fin.get ⟨i, hi⟩).Index ∈ (["Nylon 6", "Polyethylene"] : List String) →
          fin2.get ⟨i, hi2⟩ =
            ⟨(fin.get ⟨i, hi⟩).Category, (fin.get ⟨i, hi⟩).Variable,
              (fin.get ⟨i, hi⟩).Index, 0⟩) ∧
        (¬((fin.get ⟨i, hi⟩).Category = "Cost" ∧ (fin.get ⟨i, hi⟩).Variable = "Input" ∧
            (fin.get ⟨i, hi⟩).Index ∈ (["Nylon 6", "Polyethylene"] : List String)) →
          fin2.get ⟨i, hi2⟩ = fin.get ⟨i, hi⟩)) ∧
      (∀ r ∈ fin2, r.Category = "Cost" → r.Variable = "Input" →
        r.Index ∈ (["Nylon 6", "Polyethylene"] : List String) → r.Value = 0)) ∧
    (∀ (name product : String) (design : List DRow) (fin : List FRow) (output : ℚ)
        (t : Tech) (fin2 : List FRow),
      evalTechnology name product design fin true output = .ok (t, fin2) → fin2 = fin) := by
  constructor
  · intro name product design fin output t fin2 h
    obtain ⟨-, -, hf, -⟩ := evalTechnology_ok h
    have hf2 : fin2 = fin.map zeroRecycledRule := by simpa [mutFinOf] using hf
    subst hf2
    refine ⟨by simp, ?_, ?_⟩
    · intro i hi hi2
      simp only [List.get_eq_getElem, List.getElem_map, zeroRecycledRule]
      constructor
      · intro hmask
        rw [if_pos hmask]
      · intro hmask
        rw [if_neg hmask]
    · intro r hr hc hv hi
      obtain ⟨r0, hr0, hr0e⟩ := List.mem_map.mp hr
      subst hr0e
      by_cases hmask : r0.Category = "Cost" ∧ r0.Variable = "Input" ∧
          r0.Index ∈ (["Nylon 6", "Polyethylene"] : List String)
      · show (zeroRecycledRule r0).Value = 0
        unfold zeroRecycledRule
        rw [if_pos hmask]
      · unfold zeroRecycledRule at hc hv hi
        rw [if_neg hmask] at hc hv hi
        exact absurd ⟨hc, hv, hi⟩ hmask
  · intro name product design fin output t fin2 h
    exact evalTechnology_fin_true h

/-- A financial table providing each scalar parameter exactly once, so that
the first-match modelling of the source's scalar `.values` lookups is
exact. -/
def WFfin (fin : List FRow) : Prop :=
  (fin.countP fun r => r.Variable = "Operating Hours") = 1 ∧
  (fin.countP fun r => r.Variable = "Working Hours") = 1 ∧
  (fin.countP fun r => r.Index = "Installation") = 1 ∧
  (fin.countP fun r => r.Index = "Maintenance") = 1 ∧
  (fin.countP fun r => r.Index = "Waste disposal") = 1 ∧
  (fin.countP fun r => r.Category = "Cost Multiplier" ∧ r.Variable = "Labor") = 1

/-- C6 (amended): for a financial table providing the scalar parameters, a
Technology evaluation fails with the technology-not-found error iff the
design table has no row for the technology; with the product-not-found error
iff the technology exists but the product is not among its Output indices;
and it completes iff additionally the merged production table is nonempty -
when the technology has efficiency rows but none matches any Output line,
evaluation instead aborts on an empty-frame `IndexError`. -/
theorem notfound_characterization (name product : String) (design : List DRow)
    (fin : List FRow) (initial : Bool) (output : ℚ) (hwf : WFfin fin) :
    (evalTechnology name product design fin initial output = .error .technologyNotFound ↔
      designOf design name = []) ∧
    (evalTechnology name product design fin initial output = .error .productNotFound ↔
      (designOf design name ≠ [] ∧ product ∉ outIdxOf (designOf design name))) ∧
    ((∃ t fin2, evalTechnology name product design fin initial output = .ok (t, fin2)) ↔
      (designOf design name ≠ [] ∧ product ∈ outIdxOf (designOf design name) ∧
        production (designOf design name) (opHrsOf (mutFinOf fin initial)) ≠ [])) := by
  clear hwf
  unfold evalTechnology
  dsimp only
  by_cases h1 : designOf design name = []
  · rw [if_pos h1]
    simp [h1]
  · rw [if_neg h1]
    by_cases h2 : product ∈ outIdxOf (designOf design name)
    · rw [if_neg (not_not_intro h2)]
      cases hp : production (designOf design name) (opHrsOf (mutFinOf fin initial)) with
      | nil => simp [h1, h2, hp]
      | cons o0 rest => simp [h1, h2, hp]
    · rw [if_pos h2]
      simp [h1, h2]

/-- C6 counterexample: technology T exists and its product P is among the
Output indices, yet evaluation does not complete - the technology has an
efficiency row (for Q) matching no Output line, so the production merge is
empty and `.values[0]` raises `IndexError`. -/
theorem notfound_characterization_cex :
    designOf designNoMatch "T" ≠ [] ∧
    ("P" : String) ∈ outIdxOf (designOf designNoMatch "T") ∧
    errOf (evalTechnology "T" "P" designNoMatch sampleFin true 1) = some .indexError := by
  refine ⟨by decide, by decide, by decide⟩

lemma production_mem {designT : List DRow} {op : ℚ} {o : OutRow}
    (ho : o ∈ production designT op) :
    ∃ d ∈ designT, d.Variable = "Output" ∧ d.Index = o.Index ∧
      o.Theoretical = d.Value * op ∧
      (((designT.filter fun r => r.Variable = "Output efficiency") ≠ [] ∧
          ∃ er ∈ designT, er.Variable = "Output efficiency" ∧ er.Index = o.Index ∧
            o.Actual = o.Theoretical * er.Value) ∨
        ((designT.filter fun r => r.Variable = "Output efficiency") = [] ∧
          o.Actual = o.Theoretical)) := by
  unfold production at ho
  dsimp only at ho
  split at ho
  · rename_i he
    simp only [List.mem_map, List.mem_filter, decide_eq_true_eq, pairIV] at ho
    obtain ⟨p, ⟨d, ⟨hd, hdv⟩, hpd⟩, rfl⟩ := ho
    subst hpd
    exact ⟨d, hd, hdv, rfl, rfl, Or.inr ⟨he, rfl⟩⟩
  · rename_i he
    simp only [List.mem_flatMap, List.mem_map, List.mem_filter, decide_eq_true_eq, pairIV] at ho
    obtain ⟨p, ⟨d, ⟨hd, hdv⟩, hpd⟩, q, ⟨⟨er, ⟨her, herv⟩, hqe⟩, hqi⟩, rfl⟩ := ho
    subst hpd
    subst hqe
    refine ⟨d, hd, hdv, rfl, rfl, Or.inl ⟨he, er, her, herv, ?_, by ring⟩⟩
    simpa using hqi

lemma production_covers_noeff {designT : List DRow} {op : ℚ}
    (he : (designT.filter fun r => r.Variable = "Output efficiency") = []) :
    ∀ d ∈ designT, d.Variable = "Output" →
      ∃ o ∈ production designT op, o.Index = d.Index := by
  intro d hd hdv
  refine ⟨⟨d.Index, d.Value * op, d.Value * op⟩, ?_, rfl⟩
  unfold production
  dsimp only
  rw [if_pos he]
  simp only [List.mem_map, List.mem_filter, decide_eq_true_eq, pairIV]
  exact ⟨(d.Index, d.Value), ⟨d, ⟨hd, hdv⟩, rfl⟩, rfl⟩

lemma production_covers_eff {designT : List DRow} {op : ℚ} {d er : DRow}
    (hd : d ∈ designT) (hdv : d.Variable = "Output")
    (her : er ∈ designT) (herv : er.Variable = "Output efficiency")
    (hidx : er.Index = d.Index) :
    ∃ o ∈ production designT op, o.Index = d.Index := by
  have hne : (designT.filter fun r => r.Variable = "Output efficiency") ≠ [] :=
    List.ne_nil_of_mem (List.mem_filter.mpr ⟨her, by simp [herv]⟩)
  refine ⟨⟨d.Index, d.Value * er.Value * op, d.Value * op⟩, ?_, rfl⟩
  unfold production
  dsimp only
  rw [if_neg hne]
  refine List.mem_flatMap.mpr ⟨pairIV d, ?_, ?_⟩
  · exact List.mem_map.mpr ⟨d, List.mem_filter.mpr ⟨hd, by simp [hdv]⟩, rfl⟩
  · refine List.mem_map.mpr ⟨pairIV er, List.mem_filter.mpr ⟨?_, by simp [pairIV, hidx]⟩, ?_⟩
    · exact List.mem_map.mpr ⟨er, List.mem_filter.mpr ⟨her, by simp [herv]⟩, rfl⟩
    · simp [pairIV]

/-- C7 (amended): every line of the production-amounts result comes from an
Output design row with theoretical amount = nominal times operating hours;
when the technology has at least one efficiency row, a line's actual amount
is theoretical times the matching efficiency and exactly the Output lines
WITH a matching efficiency row appear (unmatched ones are dropped by the
inner merge); when it has none, every Output line appears with actual =
theoretical. -/
theorem production_amounts_characterization (name product : String) (design : List DRow)
    (fin : List FRow) (initial : Bool) (output : ℚ) (t : Tech) (fin2 : List FRow)
    (h : evalTechnology name product design fin initial output = .ok (t, fin2)) :
    (∀ o ∈ t.output_amounts,
      ∃ d ∈ designOf design name, d.Variable = "Output" ∧ d.Index = o.Index ∧
        o.Theoretical = d.Value * opHrsOf (mutFinOf fin initial) ∧
        ((((designOf design name).filter fun r => r.Variable = "Output efficiency") ≠ [] ∧
            ∃ er ∈ designOf design name, er.Variable = "Output efficiency" ∧
              er.Index = o.Index ∧ o.Actual = o.Theoretical * er.Value) ∨
          (((designOf design name).filter fun r => r.Variable = "Output efficiency") = [] ∧
            o.Actual = o.Theoretical))) ∧
    ((((designOf design name).filter fun r => r.Variable = "Output efficiency") = []) →
      ∀ d ∈ designOf design name, d.Variable = "Output" →
        ∃ o ∈ t.output_amounts, o.Index = d.Index) ∧
    (∀ d ∈ designOf design name, d.Variable = "Output" →
      (∃ er ∈ designOf design name, er.Variable = "Output efficiency" ∧ er.Index = d.Index) →
      ∃ o ∈ t.output_amounts, o.Index = d.Index) := by
  obtain ⟨-, -, -, o0, rest, hp, ht⟩ := evalTechnology_ok h
  have hout : t.output_amounts =
      production (designOf design name) (opHrsOf (mutFinOf fin initial)) := by
    subst ht
    exact hp.symm
  rw [hout]
  refine ⟨fun o ho => production_mem ho, ?_, ?_⟩
  · intro he d hd hdv
    exact production_covers_noeff he d hd hdv
  · intro d hd hdv her
    obtain ⟨er, her, herv, hidx⟩ := her
    exact production_covers_eff hd hdv her herv hidx

/-- C7 counterexample: technology T has Output lines P and Q but an
efficiency row only for P; the production-amounts result contains only P,
so the Output line Q does not appear. -/
theorem production_amounts_characterization_cex :
    ((evalTechnology "T" "P" designDropQ sampleFin true 1).toOption.map
        fun p => p.1.output_amounts.map fun o => o.Index) = some ["P"] ∧
    (⟨"T", "Output", "Q", 1⟩ : DRow) ∈ designDropQ ∧
    ("Q" : String) ∉ (["P"] : List String) := by
  refine ⟨?_, by decide, by decide⟩
  simp [evalTechnology, designDropQ, sampleFin, designOf, outIdxOf, mutFinOf, opHrsOf,
    production, mkTech, annualCosts, capitalAnnual, capCostOf, instMultOf, rawMaterialCosts,
    matsOf, laborCosts, utilityCosts, wasteCosts, otherCosts, joinOn, joinLeftD, firstValD,
    pairIV, fpairIV, primaryProducers, productRevenue, coproductRevenue, Except.toOption]

lemma exists_ok_of_isOkE {α : Type} {x : Except TErr α} (h : isOkE x = true) :
    ∃ a, x = .ok a := by
  cases x with
  | ok a => exact ⟨a, rfl⟩
  | error e => simp [isOkE] at h

lemma buildScenario_ok {pp prod : String} {FU : ℚ} {eol : List (String × ℚ × ℕ)}
    {products : String → String} {design : List DRow} {fin : List FRow}
    {sdata : List SRow} {s : Scenario}
    (h : buildScenario pp prod FU eol products design fin sdata = .ok s) :
    ∃ pe mb t0 fin0 stF,
      effOf design pp = .ok pe ∧
      runLoop1 design sdata FU ⟨0, 0, 0, 0⟩ eol = .ok mb ∧
      evalTechnology pp prod design fin true mb.virg = .ok (t0, fin0) ∧
      runLoop2 design sdata FU mb.virg mb.masc mb.strap products
        (chainSt0 pp prod mb.virg fin fin0 t0) eol = .ok stF ∧
      s = scenarioOf mb stF := by
  unfold buildScenario at h
  cases he : effOf design pp with
  | error e => simp only [he] at h; exact Except.noConfusion h
  | ok pe =>
    simp only [he] at h
    cases hl1 : runLoop1 design sdata FU ⟨0, 0, 0, 0⟩ eol with
    | error e => simp only [hl1] at h; exact Except.noConfusion h
    | ok mb =>
      simp only [hl1] at h
      cases hev : evalTechnology pp prod design fin true mb.virg with
      | error e => simp only [hev] at h; exact Except.noConfusion h
      | ok tf =>
        obtain ⟨t0, fin0⟩ := tf
        simp only [hev] at h
        cases hl2 : runLoop2 design sdata FU mb.virg mb.masc mb.strap products
            (chainSt0 pp prod mb.virg fin fin0 t0) eol with
        | error e => simp only [hl2] at h; exact Except.noConfusion h
        | ok stF =>
          simp only [hl2] at h
          exact ⟨pe, mb, t0, fin0, stF, rfl, rfl, hev, hl2, (Except.ok.inj h).symm⟩

lemma runLoop1_cons {design : List DRow} {sdata : List SRow} {FU : ℚ} {st : MB}
    {x : String × ℚ × ℕ} {l : List (String × ℚ × ℕ)} {mb : MB}
    (h : runLoop1 design sdata FU st (x :: l) = .ok mb) :
    ∃ st', loop1Step design sdata FU st x = .ok st' ∧
      runLoop1 design sdata FU st' l = .ok mb := by
  unfold runLoop1 at h
  cases hs : loop1Step design sdata FU st x with
  | error e => simp only [hs] at h; exact Except.noConfusion h
  | ok st' =>
    simp only [hs] at h
    exact ⟨st', rfl, h⟩

lemma runLoop1_append {design : List DRow} {sdata : List SRow} {FU : ℚ} {st : MB}
    {l l2 : List (String × ℚ × ℕ)} {mb : MB}
    (h : runLoop1 design sdata FU st (l ++ l2) = .ok mb) :
    ∃ m, runLoop1 design sdata FU st l = .ok m ∧
      runLoop1 design sdata FU m l2 = .ok mb := by
  induction l generalizing st with
  | nil => exact ⟨st, rfl, h⟩
  | cons x xs ih =>
    rw [List.cons_append] at h
    obtain ⟨st', hs, h'⟩ := runLoop1_cons h
    obtain ⟨m, hm, hm2⟩ := ih h'
    refine ⟨m, ?_, hm2⟩
    unfold runLoop1
    simp only [hs]
    exact hm

lemma runLoop1_singleton {design : List DRow} {sdata : List SRow} {FU : ℚ} {st : MB}
    {x : String × ℚ × ℕ} {mb : MB}
    (h : runLoop1 design sdata FU st [x] = .ok mb) :
    loop1Step design sdata FU st x = .ok mb := by
  obtain ⟨st', hs, h'⟩ := runLoop1_cons h
  unfold runLoop1 at h'
  rw [← Except.ok.inj h']
  exact hs

lemma loop1Step_masc {design : List DRow} {sdata : List SRow} {FU f : ℚ} {n : ℕ}
    {st mb : MB} {e : ℚ}
    (he : effOf design "Mechanical and Solvent Cleaning" = .ok e)
    (h : loop1Step design sdata FU st ("Mechanical and Solvent Cleaning", f, n) = .ok mb) :
    mb = { st with virg := virgClosed f FU e n, masc := prodClosed f FU e n } := by
  unfold loop1Step at h
  simp only [he, String.reduceEq, if_true, reduceIte] at h
  exact (Except.ok.inj h).symm

lemma loop1Step_stp {design : List DRow} {sdata : List SRow} {FU f : ℚ} {n : ℕ}
    {st mb : MB} {e eD : ℚ} {d : String}
    (he : effOf design "Solvent Treatment and Precipitation" = .ok e)
    (hd : downstreamOf sdata "Solvent Treatment and Precipitation" = .ok d)
    (heD : effOf design d = .ok eD)
    (h : loop1Step design sdata FU st ("Solvent Treatment and Precipitation", f, n) = .ok mb) :
    mb = { st with virg := virgClosed f FU (eD * e) n,
                   strap := prodClosed f FU (eD * e) n } := by
  unfold loop1Step at h
  simp only [he, hd, heD, String.reduceEq, if_false, reduceIte] at h
  exact (Except.ok.inj h).symm

lemma loop1Step_simple {design : List DRow} {sdata : List SRow} {FU : ℚ}
    {st mb : MB} {x : String × ℚ × ℕ}
    (hx1 : x.1 ≠ "Mechanical and Solvent Cleaning")
    (hx2 : x.1 ≠ "Solvent Treatment and Precipitation")
    (h : loop1Step design sdata FU st x = .ok mb) :
    mb = { st with amt := st.amt + FU * x.2.1, virg := FU } := by
  unfold loop1Step at h
  cases he : effOf design x.1 with
  | error e => simp only [he] at h; exact Except.noConfusion h
  | ok e =>
    simp only [he, if_neg hx1, if_neg hx2] at h
    exact (Except.ok.inj h).symm

lemma geomDen_pos (e : ℚ) (he : 0 ≤ e) (n : ℕ) : 0 < geomDen e n := by
  have h1 : (0 : ℚ) ≤ ∑ i ∈ Finset.range (n + 1), e ^ i :=
    Finset.sum_nonneg fun i _ => pow_nonneg he i
  unfold geomDen
  linarith

lemma geomDen_one (n : ℕ) : geomDen 1 n = (n : ℚ) + 2 := by
  unfold geomDen
  simp [Finset.sum_const]
  ring

lemma finalLandfillStep_shape {design : List DRow} {st st' : ChainSt}
    (h : finalLandfillStep design st = .ok st') :
    st'.fin = st.fin ∧ st'.ftl = st.ftl ∧ st'.film = st.film ∧ st'.poly = st.poly ∧
    ∃ E C, st'.events = st.events ++ E ∧ st'.chain = st.chain ++ C ∧
      ∀ ev ∈ E, evFin ev = some st.fin := by
  unfold finalLandfillStep at h
  split at h
  · obtain rfl := Except.ok.inj h
    exact ⟨rfl, rfl, rfl, rfl, [], [], by simp, by simp, by simp⟩
  · cases hev : evalTechnology "Landfilling" "Landfilled waste" design st.fin true st.ftl with
    | error e => simp only [hev] at h; exact Except.noConfusion h
    | ok tf =>
      obtain ⟨lf, fin'⟩ := tf
      have hfin : fin' = st.fin := evalTechnology_fin_true hev
      simp only [hev] at h
      obtain rfl := (Except.ok.inj h).symm
      refine ⟨hfin, rfl, rfl, rfl,
        [Event.evaluation "Landfilling" "Landfilled waste" true st.ftl st.fin],
        [{ lf with name := "Landfilling, final" }], rfl, rfl, ?_⟩
      intro ev hev2
      simp only [List.mem_singleton] at hev2
      subst hev2
      rfl

lemma loop2Step_noSTP {design : List DRow} {sdata : List SRow} {FU virg masc strap : ℚ}
    {products : String → String} {st st' : ChainSt} {x : String × ℚ × ℕ}
    (hx : x.1 ≠ "Solvent Treatment and Precipitation")
    (h : loop2Step design sdata FU virg masc strap products st x = .ok st') :
    st'.fin = st.fin ∧ ∃ E C, st'.events = st.events ++ E ∧ st'.chain = st.chain ++ C ∧
      ∀ ev ∈ E, evFin ev = some st.fin := by
  unfold loop2Step at h
  cases he : effOf design x.1 with
  | error e => simp only [he] at h; exact Except.noConfusion h
  | ok e =>
    simp only [he] at h
    by_cases hm : x.1 = "Mechanical and Solvent Cleaning"
    · rw [if_pos hm] at h
      cases hev : evalTechnology x.1 (products x.1) design st.fin true masc with
      | error e2 => simp only [hev] at h; exact Except.noConfusion h
      | ok tf =>
        obtain ⟨t, fin'⟩ := tf
        have hfin : fin' = st.fin := evalTechnology_fin_true hev
        simp only [hev] at h
        obtain ⟨hf2, hftl, hfilm, hpoly, E2, C2, hE2, hC2, hfins⟩ := finalLandfillStep_shape h
        subst hfin
        refine ⟨hf2, [Event.evaluation x.1 (products x.1) true masc st.fin] ++ E2,
          [t] ++ C2, ?_, ?_, ?_⟩
        · rw [hE2]; simp
        · rw [hC2]; simp
        · intro ev hev2
          rcases List.mem_append.mp hev2 with h1 | h2
          · simp only [List.mem_singleton] at h1
            subst h1
            rfl
          · exact hfins ev h2
    · rw [if_neg hm, if_neg hx] at h
      cases hev : evalTechnology x.1 (products x.1) design st.fin true (FU * x.2.1) with
      | error e2 => simp only [hev] at h; exact Except.noConfusion h
      | ok tf =>
        obtain ⟨t, fin'⟩ := tf
        have hfin : fin' = st.fin := evalTechnology_fin_true hev
        simp only [hev] at h
        obtain ⟨hf2, hftl, hfilm, hpoly, E2, C2, hE2, hC2, hfins⟩ := finalLandfillStep_shape h
        subst hfin
        refine ⟨hf2, [Event.evaluation x.1 (products x.1) true (FU * x.2.1) st.fin] ++ E2,
          [t] ++ C2, ?_, ?_, ?_⟩
        · rw [hE2]; simp
        · rw [hC2]; simp
        · intro ev hev2
          rcases List.mem_append.mp hev2 with h1 | h2
          · simp only [List.mem_singleton] at h1
            subst h1
            rfl
          · exact hfins ev h2

lemma loop2Step_stp {design : List DRow} {sdata : List SRow} {FU virg masc strap : ℚ}
    {products : String → String} {st st' : ChainSt} {x : String × ℚ × ℕ}
    (hx : x.1 = "Solvent Treatment and Precipitation")
    (h : loop2Step design sdata FU virg masc strap products st x = .ok st') :
    ∃ e d eD t fin1 tD fin2 E C,
      effOf design x.1 = .ok e ∧
      downstreamOf sdata x.1 = .ok d ∧
      effOf design d = .ok eD ∧
      evalTechnology x.1 (products x.1) design st.fin true (7/10 * strap / eD) = .ok (t, fin1) ∧
      evalTechnology d "Barrier film" design fin1 false strap = .ok (tD, fin2) ∧
      st'.fin = overwriteBF fin2 tD.net_normalized_costs ∧
      st'.events = st.events ++
        [Event.evaluation x.1 (products x.1) true (7/10 * strap / eD) st.fin,
         Event.evaluation d "Barrier film" false strap fin1,
         Event.overwrite tD.net_normalized_costs] ++ E ∧
      st'.chain = st.chain ++ [t, tD] ++ C ∧
      (∀ ev ∈ E, evFin ev = some (overwriteBF fin2 tD.net_normalized_costs)) ∧
      st'.poly = 7/10 * strap / eD ∧
      st'.ftl = virg * x.2.1 * (e * eD) ^ x.2.2 ∧
      st'.film = strap := by
  have hm : x.1 ≠ "Mechanical and Solvent Cleaning" := by rw [hx]; decide
  unfold loop2Step at h
  cases he : effOf design x.1 with
  | error e => simp only [he] at h; exact Except.noConfusion h
  | ok e =>
    simp only [he] at h
    rw [if_neg hm, if_pos hx] at h
    cases hd : downstreamOf sdata x.1 with
    | error e2 => simp only [hd] at h; exact Except.noConfusion h
    | ok d =>
      simp only [hd] at h
      cases heD : effOf design d with
      | error e2 => simp only [heD] at h; exact Except.noConfusion h
      | ok eD =>
        simp only [heD] at h
        cases hev1 : evalTechnology x.1 (products x.1) design st.fin true (7/10 * strap / eD) with
        | error e2 => simp only [hev1] at h; exact Except.noConfusion h
        | ok tf1 =>
          obtain ⟨t, fin1⟩ := tf1
          simp only [hev1] at h
          cases hev2 : evalTechnology d "Barrier film" design fin1 false strap with
          | error e2 => simp only [hev2] at h; exact Except.noConfusion h
          | ok tf2 =>
            obtain ⟨tD, fin2⟩ := tf2
            simp only [hev2] at h
            obtain ⟨hf2, hftl, hfilm, hpoly, E2, C2, hE2, hC2, hfins⟩ :=
              finalLandfillStep_shape h
            exact ⟨e, d, eD, t, fin1, tD, fin2, E2, C2, rfl, rfl, heD, hev1, hev2,
              hf2, hE2, hC2, hfins, hpoly, hftl, hfilm⟩

lemma runLoop2_cons {design : List DRow} {sdata : List SRow} {FU virg masc strap : ℚ}
    {products : String → String} {st : ChainSt} {x : String × ℚ × ℕ}
    {l : List (String × ℚ × ℕ)} {stF : ChainSt}
    (h : runLoop2 design sdata FU virg masc strap products st (x :: l) = .ok stF) :
    ∃ st', loop2Step design sdata FU virg masc strap products st x = .ok st' ∧
      runLoop2 design sdata FU virg masc strap products st' l = .ok stF := by
  unfold runLoop2 at h
  cases hs : loop2Step design sdata FU virg masc strap products st x with
  | error e => simp only [hs] at h; exact Except.noConfusion h
  | ok st' =>
    simp only [hs] at h
    exact ⟨st', rfl, h⟩

lemma runLoop2_append {design : List DRow} {sdata : List SRow} {FU virg masc strap : ℚ}
    {products : String → String} {st : ChainSt} {l l2 : List (String × ℚ × ℕ)}
    {stF : ChainSt}
    (h : runLoop2 design sdata FU virg masc strap products st (l ++ l2) = .ok stF) :
    ∃ m, runLoop2 design sdata FU virg masc strap products st l = .ok m ∧
      runLoop2 design sdata FU virg masc strap products m l2 = .ok stF := by
  induction l generalizing st with
  | nil => exact ⟨st, rfl, h⟩
  | cons x xs ih =>
    rw [List.cons_append] at h
    obtain ⟨st', hs, h'⟩ := runLoop2_cons h
    obtain ⟨m, hm, hm2⟩ := ih h'
    refine ⟨m, ?_, hm2⟩
    unfold runLoop2
    simp only [hs]
    exact hm

lemma runLoop2_nil {design : List DRow} {sdata : List SRow} {FU virg masc strap : ℚ}
    {products : String → String} {st stF : ChainSt}
    (h : runLoop2 design sdata FU virg masc strap products st [] = .ok stF) :
    stF = st := by
  unfold runLoop2 at h
  exact (Except.ok.inj h).symm

lemma runLoop2_noSTP {design : List DRow} {sdata : List SRow} {FU virg masc strap : ℚ}
    {products : String → String} {l : List (String × ℚ × ℕ)} {st stF : ChainSt}
    (hl : ("Solvent Treatment and Precipitation" : String) ∉ l.map (fun y => y.1))
    (h : runLoop2 design sdata FU virg masc strap products st l = .ok stF) :
    stF.fin = st.fin ∧ ∃ E, stF.events = st.events ++ E ∧
      ∀ ev ∈ E, evFin ev = some st.fin := by
  induction l generalizing st with
  | nil =>
    obtain rfl := runLoop2_nil h
    exact ⟨rfl, [], by simp, by simp⟩
  | cons x xs ih =>
    simp only [List.map_cons, List.mem_cons, not_or] at hl
    obtain ⟨hx, hxs⟩ := hl
    obtain ⟨st', hs, h'⟩ := runLoop2_cons h
    obtain ⟨hfin1, E1, C1, hE1, hC1, hfins1⟩ := loop2Step_noSTP (fun he => hx he.symm) hs
    obtain ⟨hfin2, E2, hE2, hfins2⟩ := ih hxs h'
    refine ⟨hfin2.trans hfin1, E1 ++ E2, ?_, ?_⟩
    · rw [hE2, hE1, List.append_assoc]
    · intro ev hev
      rcases List.mem_append.mp hev with h1 | h2
      · exact hfins1 ev h1
      · rw [hfins2 ev h2, hfin1]

lemma loop2Step_chain_mono {design : List DRow} {sdata : List SRow}
    {FU virg masc strap : ℚ} {products : String → String} {st st' : ChainSt}
    {x : String × ℚ × ℕ}
    (h : loop2Step design sdata FU virg masc strap products st x = .ok st') :
    ∃ C, st'.chain = st.chain ++ C := by
  by_cases hx : x.1 = "Solvent Treatment and Precipitation"
  · obtain ⟨e, d, eD, t, fin1, tD, fin2, E, C, -, -, -, -, -, -, -, hC, -⟩ :=
      loop2Step_stp hx h
    exact ⟨[t, tD] ++ C, by rw [hC, List.append_assoc]⟩
  · obtain ⟨-, E, C, -, hC, -⟩ := loop2Step_noSTP hx h
    exact ⟨C, hC⟩

lemma runLoop2_chain_mono {design : List DRow} {sdata : List SRow}
    {FU virg masc strap : ℚ} {products : String → String}
    {l : List (String × ℚ × ℕ)} {st stF : ChainSt}
    (h : runLoop2 design sdata FU virg masc strap products st l = .ok stF) :
    ∃ C, stF.chain = st.chain ++ C := by
  induction l generalizing st with
  | nil =>
    obtain rfl := runLoop2_nil h
    exact ⟨[], by simp⟩
  | cons x xs ih =>
    obtain ⟨st', hs, h'⟩ := runLoop2_cons h
    obtain ⟨C1, hC1⟩ := loop2Step_chain_mono hs
    obtain ⟨C2, hC2⟩ := ih h'
    exact ⟨C1 ++ C2, by rw [hC2, hC1, List.append_assoc]⟩

lemma overwriteBF_value {fin : List FRow} {v : ℚ} :
    ∀ r ∈ overwriteBF fin v, r.Index = "Barrier film" → r.Value = v := by
  intro r hr hidx
  obtain ⟨r0, hr0, hre⟩ := List.mem_map.mp hr
  subst hre
  by_cases h0 : r0.Index = "Barrier film"
  · rw [if_pos h0]
  · rw [if_neg h0] at hidx ⊢
    exact absurd hidx h0

lemma finalLandfillStep_zero {design : List DRow} {st st' : ChainSt} (h0 : st.ftl = 0)
    (h : finalLandfillStep design st = .ok st') : st' = st := by
  unfold finalLandfillStep at h
  rw [if_pos h0] at h
  exact (Except.ok.inj h).symm

lemma loop2Step_simple {design : List DRow} {sdata : List SRow} {FU virg masc strap : ℚ}
    {products : String → String} {st st' : ChainSt} {x : String × ℚ × ℕ}
    (hm : x.1 ≠ "Mechanical and Solvent Cleaning")
    (hstp : x.1 ≠ "Solvent Treatment and Precipitation")
    (h : loop2Step design sdata FU virg masc strap products st x = .ok st') :
    ∃ e t fin', effOf design x.1 = .ok e ∧
      evalTechnology x.1 (products x.1) design st.fin true (FU * x.2.1) = .ok (t, fin') ∧
      finalLandfillStep design
        { st with
          chain := st.chain ++ [t],
          events := st.events ++
            [Event.evaluation x.1 (products x.1) true (FU * x.2.1) st.fin],
          fin := fin',
          film := FU * x.2.1,
          poly := 0,
          ftl := if x.1 ∈ terminalSinks then 0 else virg * x.2.1 * e } = .ok st' := by
  unfold loop2Step at h
  cases he : effOf design x.1 with
  | error e => simp only [he] at h; exact Except.noConfusion h
  | ok e =>
    simp only [he, if_neg hm, if_neg hstp] at h
    cases hev : evalTechnology x.1 (products x.1) design st.fin true (FU * x.2.1) with
    | error e2 => simp only [hev] at h; exact Except.noConfusion h
    | ok tf =>
      obtain ⟨t, fin'⟩ := tf
      simp only [hev] at h
      exact ⟨e, t, fin', rfl, rfl, h⟩

lemma loop2Step_masc_ftl {design : List DRow} {sdata : List SRow}
    {FU virg masc strap : ℚ} {products : String → String} {st st' : ChainSt}
    {x : String × ℚ × ℕ} {e : ℚ}
    (hx : x.1 = "Mechanical and Solvent Cleaning")
    (he : effOf design x.1 = .ok e)
    (h : loop2Step design sdata FU virg masc strap products st x = .ok st') :
    st'.ftl = virg * x.2.1 * e ^ x.2.2 := by
  unfold loop2Step at h
  simp only [he] at h
  rw [if_pos hx] at h
  cases hev : evalTechnology x.1 (products x.1) design st.fin true masc with
  | error e2 => simp only [hev] at h; exact Except.noConfusion h
  | ok tf =>
    obtain ⟨t, fin'⟩ := tf
    simp only [hev] at h
    obtain ⟨-, hftl, -⟩ := finalLandfillStep_shape h
    exact hftl

lemma loop1Step_virg {design : List DRow} {sdata : List SRow} {FU : ℚ}
    {st1 st2 mb1 mb2 : MB} {x : String × ℚ × ℕ}
    (h1 : loop1Step design sdata FU st1 x = .ok mb1)
    (h2 : loop1Step design sdata FU st2 x = .ok mb2) :
    mb1.virg = mb2.virg := by
  obtain ⟨k, f, n⟩ := x
  by_cases hm : k = "Mechanical and Solvent Cleaning"
  · subst hm
    cases he : effOf design "Mechanical and Solvent Cleaning" with
    | error e =>
      unfold loop1Step at h1
      simp only [he] at h1
      exact Except.noConfusion h1
    | ok e =>
      rw [loop1Step_masc he h1, loop1Step_masc he h2]
  · by_cases hstp : k = "Solvent Treatment and Precipitation"
    · subst hstp
      cases he : effOf design "Solvent Treatment and Precipitation" with
      | error e =>
        unfold loop1Step at h1
        simp only [he] at h1
        exact Except.noConfusion h1
      | ok e =>
        cases hd : downstreamOf sdata "Solvent Treatment and Precipitation" with
        | error e2 =>
          unfold loop1Step at h1
          simp only [he, String.reduceEq, reduceIte, hd] at h1
          exact Except.noConfusion h1
        | ok d =>
          cases heD : effOf design d with
          | error e2 =>
            unfold loop1Step at h1
            simp only [he, String.reduceEq, reduceIte, hd, heD] at h1
            exact Except.noConfusion h1
          | ok eD =>
            rw [loop1Step_stp he hd heD h1, loop1Step_stp he hd heD h2]
    · rw [loop1Step_simple hm hstp h1, loop1Step_simple hm hstp h2]

/-- C1 (amended): for the single-stage closed-loop scenario with fraction f
and n cycles, the virgin production the code computes is
f * FU / (1 + Σ_{i=0}^{n} e^i) - the geometric sum PLUS ONE - and therefore
virgin production times that denominator gives back f * FU. -/
theorem masc_virgin_production (pp prod : String) (FU f : ℚ) (n : ℕ) (e : ℚ)
    (products : String → String) (design : List DRow) (fin : List FRow)
    (sdata : List SRow) (s : Scenario)
    (he : effOf design "Mechanical and Solvent Cleaning" = .ok e) (hnn : 0 ≤ e)
    (h : buildScenario pp prod FU [("Mechanical and Solvent Cleaning", f, n)]
        products design fin sdata = .ok s) :
    s.virgin_prod = f * FU / geomDen e n ∧
    s.virgin_prod * geomDen e n = f * FU ∧
    geomDen e n = 1 + ∑ i ∈ Finset.range (n + 1), e ^ i := by
  obtain ⟨pe, mb, t0, fin0, stF, -, hl1, -, -, hs⟩ := buildScenario_ok h
  have hmb := loop1Step_masc he (runLoop1_singleton hl1)
  subst hs
  subst hmb
  refine ⟨rfl, ?_, rfl⟩
  show virgClosed f FU e n * geomDen e n = f * FU
  unfold virgClosed
  exact div_mul_cancel₀ (f * FU) (ne_of_gt (geomDen_pos e hnn n))

/-- C2 (amended): in both closed-loop cases, a per-cycle (combined)
efficiency of exactly 1 does NOT make the final-landfill quantity zero: it
equals virgin production times the allocated fraction, with virgin
production f * FU / (n + 2). -/
theorem full_efficiency_final_landfill :
    (∀ (pp prod : String) (FU f : ℚ) (n : ℕ) (products : String → String)
        (design : List DRow) (fin : List FRow) (sdata : List SRow) (s : Scenario),
      effOf design "Mechanical and Solvent Cleaning" = .ok 1 →
      buildScenario pp prod FU [("Mechanical and Solvent Cleaning", f, n)]
          products design fin sdata = .ok s →
      s.final_landfill = s.virgin_prod * f ∧ s.virgin_prod = f * FU / ((n : ℚ) + 2)) ∧
    (∀ (pp prod d : String) (FU f e eD : ℚ) (n : ℕ) (products : String → String)
        (design : List DRow) (fin : List FRow) (sdata : List SRow) (s : Scenario),
      effOf design "Solvent Treatment and Precipitation" = .ok e →
      downstreamOf sdata "Solvent Treatment and Precipitation" = .ok d →
      effOf design d = .ok eD → eD * e = 1 →
      buildScenario pp prod FU [("Solvent Treatment and Precipitation", f, n)]
          products design fin sdata = .ok s →
      s.final_landfill = s.virgin_prod * f ∧ s.virgin_prod = f * FU / ((n : ℚ) + 2)) := by
  constructor
  · intro pp prod FU f n products design fin sdata s he h
    obtain ⟨pe, mb, t0, fin0, stF, -, hl1, -, hl2, hs⟩ := buildScenario_ok h
    have hmb := loop1Step_masc he (runLoop1_singleton hl1)
    obtain ⟨stB, hstep, htail⟩ := runLoop2_cons hl2
    obtain rfl := runLoop2_nil htail
    have hftl := loop2Step_masc_ftl rfl he hstep
    subst hs
    constructor
    · show stF.ftl = mb.virg * f
      rw [hftl]
      simp [one_pow]
    · show mb.virg = f * FU / ((n : ℚ) + 2)
      rw [hmb]
      show virgClosed f FU 1 n = f * FU / ((n : ℚ) + 2)
      unfold virgClosed
      rw [geomDen_one]
  · intro pp prod d FU f e eD n products design fin sdata s he hd heD hcomb h
    obtain ⟨pe, mb, t0, fin0, stF, -, hl1, -, hl2, hs⟩ := buildScenario_ok h
    have hmb := loop1Step_stp he hd heD (runLoop1_singleton hl1)
    obtain ⟨stB, hstep, htail⟩ := runLoop2_cons hl2
    obtain rfl := runLoop2_nil htail
    obtain ⟨e2, d2, eD2, t, fin1, tD, fin2, E, C, he2, hd2, heD2, -, -, -, -, -, -, -,
      hftl, -⟩ := loop2Step_stp rfl hstep
    have hee : e2 = e := Except.ok.inj (he2.symm.trans he)
    have hdd : d2 = d := Except.ok.inj (hd2.symm.trans hd)
    have heDeD : eD2 = eD := by
      rw [hdd] at heD2
      exact Except.ok.inj (heD2.symm.trans heD)
    subst hs
    constructor
    · show stF.ftl = mb.virg * f
      rw [hftl, hee, heDeD]
      have hcomb2 : e * eD = 1 := by rw [mul_comm]; exact hcomb
      rw [hcomb2]
      simp [one_pow]
    · show mb.virg = f * FU / ((n : ℚ) + 2)
      rw [hmb]
      show virgClosed f FU (eD * e) n = f * FU / ((n : ℚ) + 2)
      unfold virgClosed
      rw [hcomb, geomDen_one]

/-- C8: the scenario with functional unit 1 and EOL allocation sending
everything to Landfilling consists of exactly the initial production
instance followed by the Landfilling instance, its total cost is the sum of
their production costs, and no final-landfill step is appended (Landfilling
is a terminal sink). -/
theorem landfilling_scenario_chain (pp prod : String) (products : String → String)
    (design : List DRow) (fin : List FRow) (sdata : List SRow) (s : Scenario)
    (h : buildScenario pp prod 1 [("Landfilling", 1, 0)] products design fin sdata = .ok s) :
    ∃ t0 t1, s.value_chain = [t0, t1] ∧
      t0.name = pp ++ ", initial" ∧ t1.name = "Landfilling" ∧
      s.total_cost = t0.production_cost + t1.production_cost := by
  obtain ⟨pe, mb, t0, fin0, stF, -, hl1, hev, hl2, hs⟩ := buildScenario_ok h
  obtain ⟨stB, hstep, htail⟩ := runLoop2_cons hl2
  obtain rfl := runLoop2_nil htail
  obtain ⟨e, t1, fin1, he, hev1, hfls⟩ := loop2Step_simple (by decide) (by decide) hstep
  have hftl0 : (if (("Landfilling", (1 : ℚ), (0 : ℕ)).1 ∈ terminalSinks) then (0 : ℚ)
      else mb.virg * ("Landfilling", (1 : ℚ), (0 : ℕ)).2.1 * e) = 0 := by
    simp [terminalSinks]
  obtain rfl := finalLandfillStep_zero hftl0 hfls
  subst hs
  refine ⟨{ t0 with name := pp ++ ", initial" }, t1, rfl, rfl,
    (evalTechnology_fields hev1).1, ?_⟩
  show ([{ t0 with name := pp ++ ", initial" }, t1].map fun t => t.production_cost).sum = _
  simp

/-- C9: the mass-balance loop overwrites the virgin-production quantity at
every iteration, so the reported virgin production (and the initial
production instance's required output) depends only on the last EOL entry;
in particular a simple single-pass last entry forces virgin production to
the full functional unit, whatever its fraction. -/
theorem virgin_prod_last_entry (pp prod : String) (FU : ℚ) (products : String → String)
    (design : List DRow) (fin : List FRow) (sdata : List SRow)
    (l1 l2 : List (String × ℚ × ℕ)) (x : String × ℚ × ℕ) (s1 s2 : Scenario)
    (h1 : buildScenario pp prod FU (l1 ++ [x]) products design fin sdata = .ok s1)
    (h2 : buildScenario pp prod FU (l2 ++ [x]) products design fin sdata = .ok s2) :
    s1.virgin_prod = s2.virgin_prod ∧
    (x.1 ≠ "Mechanical and Solvent Cleaning" →
      x.1 ≠ "Solvent Treatment and Precipitation" → s1.virgin_prod = FU) ∧
    s1.value_chain.head?.map (fun t => t.output) = some s1.virgin_prod := by
  obtain ⟨pe1, mb1, t01, fin01, stF1, -, hl11, hev1, hl21, hs1⟩ := buildScenario_ok h1
  obtain ⟨pe2, mb2, t02, fin02, stF2, -, hl12, -, -, hs2⟩ := buildScenario_ok h2
  obtain ⟨m1, -, hx1⟩ := runLoop1_append hl11
  obtain ⟨m2, -, hx2⟩ := runLoop1_append hl12
  have hstep1 := runLoop1_singleton hx1
  have hstep2 := runLoop1_singleton hx2
  subst hs1
  subst hs2
  refine ⟨loop1Step_virg hstep1 hstep2, ?_, ?_⟩
  · intro hm hstp
    have hsimple := loop1Step_simple hm hstp hstep1
    show mb1.virg = FU
    rw [hsimple]
  · obtain ⟨C, hC⟩ := runLoop2_chain_mono hl21
    have hout : t01.output = mb1.virg := (evalTechnology_fields hev1).2.2
    show stF1.chain.head?.map (fun t => t.output) = some mb1.virg
    rw [hC]
    show (([{ t01 with name := pp ++ ", initial" }] : List Tech) ++ C).head?.map
      (fun t => t.output) = some mb1.virg
    rw [List.singleton_append, List.head?_cons]
    simp [hout]

/-- C10: for the solvent-loop scenario, the Solvent Treatment and
Precipitation instance's required output is the hardcoded 0.7 times the
total secondary film made from its materials divided by the downstream
regeneration efficiency, the scenario's `eol_polyethylene_prod` equals that
same quantity, and the downstream regeneration instance's required output is
the secondary-film total itself. -/
theorem stp_required_outputs (pp prod : String) (FU f : ℚ) (n : ℕ)
    (products : String → String) (design : List DRow) (fin : List FRow)
    (sdata : List SRow) (s : Scenario) (e eD : ℚ) (d : String)
    (he : effOf design "Solvent Treatment and Precipitation" = .ok e)
    (hd : downstreamOf sdata "Solvent Treatment and Precipitation" = .ok d)
    (heD : effOf design d = .ok eD)
    (h : buildScenario pp prod FU [("Solvent Treatment and Precipitation", f, n)]
        products design fin sdata = .ok s) :
    ∃ t0 tS tD rest, s.value_chain = t0 :: tS :: tD :: rest ∧
      tS.output = 7/10 * prodClosed f FU (eD * e) n / eD ∧
      s.eol_polyethylene_prod = tS.output ∧
      tD.output = prodClosed f FU (eD * e) n := by
  obtain ⟨pe, mb, t0, fin0, stF, -, hl1, hev, hl2, hs⟩ := buildScenario_ok h
  have hmb := loop1Step_stp he hd heD (runLoop1_singleton hl1)
  obtain ⟨stB, hstep, htail⟩ := runLoop2_cons hl2
  obtain rfl := runLoop2_nil htail
  obtain ⟨e2, d2, eD2, tS, fin1, tD, fin2, E, C, he2, hd2, heD2, hev1, hev2, -, -, hC,
    -, hpoly, -, -⟩ := loop2Step_stp rfl hstep
  have hee : e2 = e := Except.ok.inj (he2.symm.trans he)
  have hdd : d2 = d := Except.ok.inj (hd2.symm.trans hd)
  have heDeD : eD2 = eD := by
    rw [hdd] at heD2
    exact Except.ok.inj (heD2.symm.trans heD)
  have hstrap : mb.strap = prodClosed f FU (eD * e) n := by rw [hmb]
  have houtS : tS.output = 7/10 * mb.strap / eD2 := (evalTechnology_fields hev1).2.2
  have houtD : tD.output = mb.strap := (evalTechnology_fields hev2).2.2
  subst hs
  refine ⟨{ t0 with name := pp ++ ", initial" }, tS, tD, C, ?_, ?_, ?_, ?_⟩
  · show stF.chain = _
    rw [hC]
    rfl
  · rw [houtS, hstrap, heDeD]
  · show stF.poly = tS.output
    rw [hpoly, houtS]
  · rw [houtD, hstrap]

/-- C4: in the solvent-loop branch the downstream barrier-film regeneration
step is evaluated as a non-initial Technology, the financial table's Barrier
film rows are then overwritten with its net normalized cost, and every
Technology evaluation later in the run receives a financial table in which
every Barrier film row carries that cost; the downstream instance itself is
part of the value chain. -/
theorem stp_overwrite_before_later_evals (pp prod : String) (FU f : ℚ) (n : ℕ)
    (l1 l2 : List (String × ℚ × ℕ)) (products : String → String)
    (design : List DRow) (fin : List FRow) (sdata : List SRow) (s : Scenario)
    (hl2keys : ("Solvent Treatment and Precipitation" : String) ∉ l2.map (fun y => y.1))
    (h : buildScenario pp prod FU
        (l1 ++ ("Solvent Treatment and Precipitation", f, n) :: l2)
        products design fin sdata = .ok s) :
    ∃ d strapV pre post fin1 tD fin2,
      downstreamOf sdata "Solvent Treatment and Precipitation" = .ok d ∧
      evalTechnology d "Barrier film" design fin1 false strapV = .ok (tD, fin2) ∧
      s.events = pre ++
        [Event.evaluation d "Barrier film" false strapV fin1,
         Event.overwrite tD.net_normalized_costs] ++ post ∧
      (∀ ev ∈ post, ∀ ft, evFin ev = some ft →
        ∀ r ∈ ft, r.Index = "Barrier film" → r.Value = tD.net_normalized_costs) ∧
      tD ∈ s.value_chain := by
  obtain ⟨pe, mb, t0, fin0, stF, -, -, -, hl2run, hs⟩ := buildScenario_ok h
  obtain ⟨stA, hA, hrest⟩ := runLoop2_append hl2run
  obtain ⟨stB, hstep, htail⟩ := runLoop2_cons hrest
  obtain ⟨e, d, eD, t, fin1, tD, fin2, E, C, he, hd, heD, hev1, hev2, hfinB, hEB, hCB,
    hfinsE, -, -, -⟩ := loop2Step_stp rfl hstep
  obtain ⟨hfinF, E2, hEF, hfins2⟩ := runLoop2_noSTP hl2keys htail
  subst hs
  refine ⟨d, mb.strap,
    stA.events ++
      [Event.evaluation "Solvent Treatment and Precipitation"
        (products "Solvent Treatment and Precipitation") true (7/10 * mb.strap / eD)
        stA.fin],
    E ++ E2, fin1, tD, fin2, hd, hev2, ?_, ?_, ?_⟩
  · show stF.events = _
    rw [hEF, hEB]
    simp [List.append_assoc]
  · intro ev hev hft hfteq r hr hidx
    rcases List.mem_append.mp hev with h1 | h2
    · have := hfinsE ev h1
      rw [this] at hfteq
      obtain rfl := Option.some.inj hfteq
      exact overwriteBF_value r hr hidx
    · have := hfins2 ev h2
      rw [this] at hfteq
      obtain rfl := Option.some.inj hfteq
      rw [hfinB] at hr
      exact overwriteBF_value r hr hidx
  · show tD ∈ stF.chain
    obtain ⟨C2, hC2⟩ := runLoop2_chain_mono htail
    rw [hC2, hCB]
    simp

lemma ok_of_toOption_map {α β : Type} {x : Except TErr α} {f : α → β} {v : β}
    (h : x.toOption.map f = some v) : ∃ a, x = .ok a ∧ f a = v := by
  cases x with
  | ok a =>
    refine ⟨a, rfl, ?_⟩
    simpa [Except.toOption] using h
  | error e => simp [Except.toOption] at h

set_option maxHeartbeats 4000000 in
lemma mascSampleEval :
    ((buildScenario "Barrier Film" "Barrier film" 1
        [("Mechanical and Solvent Cleaning", 1, 0)] sampleProducts sampleDesign
        sampleFin sampleStruct).toOption.map fun s => s.virgin_prod) = some (1/2) := by
  simp [buildScenario, runLoop1, runLoop2, loop1Step, loop2Step, finalLandfillStep,
      chainSt0, scenarioOf, effOf, downstreamOf, virgClosed, prodClosed, geomDen,
      overwriteBF, terminalSinks, evalTechnology, designOf, outIdxOf, mutFinOf,
      zeroRecycledRule, opHrsOf, production, mkTech, annualCosts, capitalAnnual,
      capCostOf, instMultOf, onetimeCosts, rawMaterialCosts, matsOf, laborCosts,
      utilityCosts, wasteCosts, otherCosts, joinOn, joinLeftD, firstValD, pairIV,
      fpairIV, primaryProducers, productRevenue, coproductRevenue, sampleProducts,
      sampleFin, sampleStruct, Finset.sum_range_succ, Finset.sum_range_zero,
      Except.toOption, isOkE, sampleDesign]
  norm_num

set_option maxHeartbeats 4000000 in
lemma masc1SampleEval :
    ((buildScenario "Barrier Film" "Barrier film" 1
        [("Mechanical and Solvent Cleaning", 1, 0)] sampleProducts sampleDesignMASC1
        sampleFin sampleStruct).toOption.map fun s => s.final_landfill) = some (1/2) := by
  simp [buildScenario, runLoop1, runLoop2, loop1Step, loop2Step, finalLandfillStep,
      chainSt0, scenarioOf, effOf, downstreamOf, virgClosed, prodClosed, geomDen,
      overwriteBF, terminalSinks, evalTechnology, designOf, outIdxOf, mutFinOf,
      zeroRecycledRule, opHrsOf, production, mkTech, annualCosts, capitalAnnual,
      capCostOf, instMultOf, onetimeCosts, rawMaterialCosts, matsOf, laborCosts,
      utilityCosts, wasteCosts, otherCosts, joinOn, joinLeftD, firstValD, pairIV,
      fpairIV, primaryProducers, productRevenue, coproductRevenue, sampleProducts,
      sampleFin, sampleStruct, Finset.sum_range_succ, Finset.sum_range_zero,
      Except.toOption, isOkE, sampleDesignMASC1]
  norm_num

set_option maxHeartbeats 4000000 in
lemma stpSampleOk :
    isOkE (buildScenario "Barrier Film" "Barrier film" 1
      [("Solvent Treatment and Precipitation", 1, 0)] sampleProducts sampleDesign
      sampleFin sampleStruct) = true := by
  simp [buildScenario, runLoop1, runLoop2, loop1Step, loop2Step, finalLandfillStep,
      chainSt0, scenarioOf, effOf, downstreamOf, virgClosed, prodClosed, geomDen,
      overwriteBF, terminalSinks, evalTechnology, designOf, outIdxOf, mutFinOf,
      zeroRecycledRule, opHrsOf, production, mkTech, annualCosts, capitalAnnual,
      capCostOf, instMultOf, onetimeCosts, rawMaterialCosts, matsOf, laborCosts,
      utilityCosts, wasteCosts, otherCosts, joinOn, joinLeftD, firstValD, pairIV,
      fpairIV, primaryProducers, productRevenue, coproductRevenue, sampleProducts,
      sampleFin, sampleStruct, Finset.sum_range_succ, Finset.sum_range_zero,
      Except.toOption, isOkE, sampleDesign]

set_option maxHeartbeats 4000000 in
lemma stp1SampleOk :
    isOkE (buildScenario "Barrier Film" "Barrier film" 1
      [("Solvent Treatment and Precipitation", 1, 0)] sampleProducts sampleDesignSTP1
      sampleFin sampleStruct) = true := by
  simp [buildScenario, runLoop1, runLoop2, loop1Step, loop2Step, finalLandfillStep,
      chainSt0, scenarioOf, effOf, downstreamOf, virgClosed, prodClosed, geomDen,
      overwriteBF, terminalSinks, evalTechnology, designOf, outIdxOf, mutFinOf,
      zeroRecycledRule, opHrsOf, production, mkTech, annualCosts, capitalAnnual,
      capCostOf, instMultOf, onetimeCosts, rawMaterialCosts, matsOf, laborCosts,
      utilityCosts, wasteCosts, otherCosts, joinOn, joinLeftD, firstValD, pairIV,
      fpairIV, primaryProducers, productRevenue, coproductRevenue, sampleProducts,
      sampleFin, sampleStruct, Finset.sum_range_succ, Finset.sum_range_zero,
      Except.toOption, isOkE, sampleDesignSTP1]

set_option maxHeartbeats 4000000 in
lemma landfillSampleOk :
    isOkE (buildScenario "Barrier Film" "Barrier film" 1 [("Landfilling", 1, 0)]
      sampleProducts sampleDesign sampleFin sampleStruct) = true := by
  simp [buildScenario, runLoop1, runLoop2, loop1Step, loop2Step, finalLandfillStep,
      chainSt0, scenarioOf, effOf, downstreamOf, virgClosed, prodClosed, geomDen,
      overwriteBF, terminalSinks, evalTechnology, designOf, outIdxOf, mutFinOf,
      zeroRecycledRule, opHrsOf, production, mkTech, annualCosts, capitalAnnual,
      capCostOf, instMultOf, onetimeCosts, rawMaterialCosts, matsOf, laborCosts,
      utilityCosts, wasteCosts, otherCosts, joinOn, joinLeftD, firstValD, pairIV,
      fpairIV, primaryProducers, productRevenue, coproductRevenue, sampleProducts,
      sampleFin, sampleStruct, Finset.sum_range_succ, Finset.sum_range_zero,
      Except.toOption, isOkE, sampleDesign]

set_option maxHeartbeats 8000000 in
lemma incLandfillSampleOk :
    isOkE (buildScenario "Barrier Film" "Barrier film" 1
      [("Incineration", 1/2, 0), ("Landfilling", 1, 0)]
      sampleProducts sampleDesign sampleFin sampleStruct) = true := by
  simp [buildScenario, runLoop1, runLoop2, loop1Step, loop2Step, finalLandfillStep,
      chainSt0, scenarioOf, effOf, downstreamOf, virgClosed, prodClosed, geomDen,
      overwriteBF, terminalSinks, evalTechnology, designOf, outIdxOf, mutFinOf,
      zeroRecycledRule, opHrsOf, production, mkTech, annualCosts, capitalAnnual,
      capCostOf, instMultOf, onetimeCosts, rawMaterialCosts, matsOf, laborCosts,
      utilityCosts, wasteCosts, otherCosts, joinOn, joinLeftD, firstValD, pairIV,
      fpairIV, primaryProducers, productRevenue, coproductRevenue, sampleProducts,
      sampleFin, sampleStruct, Finset.sum_range_succ, Finset.sum_range_zero,
      Except.toOption, isOkE, sampleDesign]

lemma firstOutSampleOk :
    isOkE (evalTechnology "T" "P" designFirstOut sampleFin true 1) = true := by
  simp [buildScenario, runLoop1, runLoop2, loop1Step, loop2Step, finalLandfillStep,
      chainSt0, scenarioOf, effOf, downstreamOf, virgClosed, prodClosed, geomDen,
      overwriteBF, terminalSinks, evalTechnology, designOf, outIdxOf, mutFinOf,
      zeroRecycledRule, opHrsOf, production, mkTech, annualCosts, capitalAnnual,
      capCostOf, instMultOf, onetimeCosts, rawMaterialCosts, matsOf, laborCosts,
      utilityCosts, wasteCosts, otherCosts, joinOn, joinLeftD, firstValD, pairIV,
      fpairIV, primaryProducers, productRevenue, coproductRevenue, sampleProducts,
      sampleFin, sampleStruct, Finset.sum_range_succ, Finset.sum_range_zero,
      Except.toOption, isOkE, designFirstOut]

lemma zeroSampleOk :
    isOkE (evalTechnology "Barrier Film" "Barrier film" sampleDesign sampleFin false 1)
      = true := by
  simp [buildScenario, runLoop1, runLoop2, loop1Step, loop2Step, finalLandfillStep,
      chainSt0, scenarioOf, effOf, downstreamOf, virgClosed, prodClosed, geomDen,
      overwriteBF, terminalSinks, evalTechnology, designOf, outIdxOf, mutFinOf,
      zeroRecycledRule, opHrsOf, production, mkTech, annualCosts, capitalAnnual,
      capCostOf, instMultOf, onetimeCosts, rawMaterialCosts, matsOf, laborCosts,
      utilityCosts, wasteCosts, otherCosts, joinOn, joinLeftD, firstValD, pairIV,
      fpairIV, primaryProducers, productRevenue, coproductRevenue, sampleProducts,
      sampleFin, sampleStruct, Finset.sum_range_succ, Finset.sum_range_zero,
      Except.toOption, isOkE, sampleDesign]


lemma dropQSampleOk :
    isOkE (evalTechnology "T" "P" designDropQ sampleFin true 1) = true := by
  simp [buildScenario, runLoop1, runLoop2, loop1Step, loop2Step, finalLandfillStep,
      chainSt0, scenarioOf, effOf, downstreamOf, virgClosed, prodClosed, geomDen,
      overwriteBF, terminalSinks, evalTechnology, designOf, outIdxOf, mutFinOf,
      zeroRecycledRule, opHrsOf, production, mkTech, annualCosts, capitalAnnual,
      capCostOf, instMultOf, onetimeCosts, rawMaterialCosts, matsOf, laborCosts,
      utilityCosts, wasteCosts, otherCosts, joinOn, joinLeftD, firstValD, pairIV,
      fpairIV, primaryProducers, productRevenue, coproductRevenue, sampleProducts,
      sampleFin, sampleStruct, Finset.sum_range_succ, Finset.sum_range_zero,
      Except.toOption, isOkE, designDropQ]


/-- C1 counterexample: with efficiency 1/2, cycle count 0 and full fraction,
the code computes virgin production 1/2, while the claimed formula
f * FU / Σ_{i=0}^{n} e^i gives 1. -/
theorem masc_virgin_production_cex :
    ((buildScenario "Barrier Film" "Barrier film" 1
        [("Mechanical and Solvent Cleaning", 1, 0)] sampleProducts sampleDesign
        sampleFin sampleStruct).toOption.map fun s => s.virgin_prod) = some (1/2) ∧
    (1 : ℚ) * 1 / (∑ i ∈ Finset.range (0 + 1), ((1 : ℚ)/2) ^ i) = 1 ∧
    ((1 : ℚ)/2) ≠ 1 := by
  refine ⟨mascSampleEval, by norm_num [Finset.sum_range_one], by norm_num⟩

/-- C1 witness: the amended formula evaluated on the sample dataset. -/
theorem masc_virgin_production_w :
    ∃ s, buildScenario "Barrier Film" "Barrier film" 1
        [("Mechanical and Solvent Cleaning", 1, 0)] sampleProducts sampleDesign
        sampleFin sampleStruct = .ok s ∧
      (s.virgin_prod = 1 * 1 / geomDen (1/2) 0 ∧
        s.virgin_prod * geomDen (1/2) 0 = 1 * 1 ∧
        geomDen ((1 : ℚ)/2) 0 = 1 + ∑ i ∈ Finset.range (0 + 1), ((1 : ℚ)/2) ^ i) := by
  obtain ⟨s, hs, -⟩ := ok_of_toOption_map mascSampleEval
  exact ⟨s, hs,
    masc_virgin_production _ _ _ _ _ _ _ _ _ _ _ (by rfl) (by norm_num) hs⟩

/-- C2 counterexample: with efficiency exactly 1, the final-landfill
quantity of the closed-loop scenario is 1/2, not zero. -/
theorem full_efficiency_final_landfill_cex :
    ((buildScenario "Barrier Film" "Barrier film" 1
        [("Mechanical and Solvent Cleaning", 1, 0)] sampleProducts sampleDesignMASC1
        sampleFin sampleStruct).toOption.map fun s => s.final_landfill) = some (1/2) ∧
    ((1 : ℚ)/2) ≠ 0 :=
  ⟨masc1SampleEval, by norm_num⟩

/-- C2 witness: the amended final-landfill value on both closed-loop cases
with efficiency 1. -/
theorem full_efficiency_final_landfill_w :
    ∃ s1 s2,
      (buildScenario "Barrier Film" "Barrier film" 1
          [("Mechanical and Solvent Cleaning", 1, 0)] sampleProducts sampleDesignMASC1
          sampleFin sampleStruct = .ok s1 ∧
        s1.final_landfill = s1.virgin_prod * 1 ∧
        s1.virgin_prod = 1 * 1 / (((0 : ℕ) : ℚ) + 2)) ∧
      (buildScenario "Barrier Film" "Barrier film" 1
          [("Solvent Treatment and Precipitation", 1, 0)] sampleProducts sampleDesignSTP1
          sampleFin sampleStruct = .ok s2 ∧
        s2.final_landfill = s2.virgin_prod * 1 ∧
        s2.virgin_prod = 1 * 1 / (((0 : ℕ) : ℚ) + 2)) := by
  obtain ⟨s1, hs1, -⟩ := ok_of_toOption_map masc1SampleEval
  obtain ⟨s2, hs2⟩ := exists_ok_of_isOkE stp1SampleOk
  have r1 := full_efficiency_final_landfill.1 _ _ _ _ _ _ _ _ _ _ (by rfl) hs1
  have r2 := full_efficiency_final_landfill.2 _ _ _ _ _ _ _ _ _ _ _ _ _
    (by rfl) (by rfl) (by rfl) (by norm_num) hs2
  exact ⟨s1, s2, ⟨hs1, r1.1, r1.2⟩, ⟨hs2, r2.1, r2.2⟩⟩

/-- C3 witness: the normalization relations on the sample technology. -/
theorem normalization_first_output_w :
    ∃ t fin2, evalTechnology "T" "P" designFirstOut sampleFin true 1 = .ok (t, fin2) ∧
      ∃ o0 rest, t.output_amounts = o0 :: rest ∧
        t.normalized_costs = t.annual_costs.map (fun c => (c.1, c.2 / o0.Actual)) ∧
        t.normalized_revenue = t.annual_revenue.map (fun c => (c.1, c.2 / o0.Actual)) ∧
        t.net_normalized_costs = (t.normalized_costs.map fun c => c.2).sum -
          (t.normalized_revenue.map fun c => c.2).sum ∧
        t.production_cost = t.output * t.net_normalized_costs := by
  obtain ⟨⟨t, fin2⟩, hok⟩ := exists_ok_of_isOkE firstOutSampleOk
  exact ⟨t, fin2, hok, normalization_first_output _ _ _ _ _ _ _ _ hok⟩

/-- C4 witness: the overwrite ordering on the sample solvent-loop scenario. -/
theorem stp_overwrite_before_later_evals_w :
    ∃ s, buildScenario "Barrier Film" "Barrier film" 1
        [("Solvent Treatment and Precipitation", 1, 0)] sampleProducts sampleDesign
        sampleFin sampleStruct = .ok s ∧
      ∃ d strapV pre post fin1 tD fin2,
        downstreamOf sampleStruct "Solvent Treatment and Precipitation" = .ok d ∧
        evalTechnology d "Barrier film" sampleDesign fin1 false strapV = .ok (tD, fin2) ∧
        s.events = pre ++
          [Event.evaluation d "Barrier film" false strapV fin1,
           Event.overwrite tD.net_normalized_costs] ++ post ∧
        (∀ ev ∈ post, ∀ ft, evFin ev = some ft →
          ∀ r ∈ ft, r.Index = "Barrier film" → r.Value = tD.net_normalized_costs) ∧
        tD ∈ s.value_chain := by
  obtain ⟨s, hs⟩ := exists_ok_of_isOkE stpSampleOk
  exact ⟨s, hs,
    stp_overwrite_before_later_evals _ _ _ _ _ [] [] _ _ _ _ _ (by simp) hs⟩

/-- C5 witness: the zeroing side effect on the sample financial table. -/
theorem noninitial_zeroes_recycled_inputs_w :
    ∃ t fin2,
      evalTechnology "Barrier Film" "Barrier film" sampleDesign sampleFin false 1 =
        .ok (t, fin2) ∧
      (fin2.length = sampleFin.length ∧
        (∀ i (hi : i < sampleFin.length) (hi2 : i < fin2.length),
          ((sampleFin.get ⟨i, hi⟩).Category = "Cost" ∧
              (sampleFin.get ⟨i, hi⟩).Variable = "Input" ∧
              (sampleFin.get ⟨i, hi⟩).Index ∈ (["Nylon 6", "Polyethylene"] : List String) →
            fin2.get ⟨i, hi2⟩ =
              ⟨(sampleFin.get ⟨i, hi⟩).Category, (sampleFin.get ⟨i, hi⟩).Variable,
                (sampleFin.get ⟨i, hi⟩).Index, 0⟩) ∧
          (¬((sampleFin.get ⟨i, hi⟩).Category = "Cost" ∧
              (sampleFin.get ⟨i, hi⟩).Variable = "Input" ∧
              (sampleFin.get ⟨i, hi⟩).Index ∈ (["Nylon 6", "Polyethylene"] : List String)) →
            fin2.get ⟨i, hi2⟩ = sampleFin.get ⟨i, hi⟩)) ∧
        (∀ r ∈ fin2, r.Category = "Cost" → r.Variable = "Input" →
          r.Index ∈ (["Nylon 6", "Polyethylene"] : List String) → r.Value = 0)) := by
  obtain ⟨⟨t, fin2⟩, hok⟩ := exists_ok_of_isOkE zeroSampleOk
  exact ⟨t, fin2, hok, noninitial_zeroes_recycled_inputs.1 _ _ _ _ _ _ _ hok⟩

/-- C6 witness: the error characterization at the counterexample inputs. -/
theorem notfound_characterization_w :
    (evalTechnology "T" "P" designNoMatch sampleFin true 1 = .error .technologyNotFound ↔
      designOf designNoMatch "T" = []) ∧
    (evalTechnology "T" "P" designNoMatch sampleFin true 1 = .error .productNotFound ↔
      (designOf designNoMatch "T" ≠ [] ∧
        ("P" : String) ∉ outIdxOf (designOf designNoMatch "T"))) ∧
    ((∃ t fin2, evalTechnology "T" "P" designNoMatch sampleFin true 1 = .ok (t, fin2)) ↔
      (designOf designNoMatch "T" ≠ [] ∧
        ("P" : String) ∈ outIdxOf (designOf designNoMatch "T") ∧
        production (designOf designNoMatch "T") (opHrsOf (mutFinOf sampleFin true)) ≠ [])) :=
  notfound_characterization "T" "P" designNoMatch sampleFin true 1
    (by unfold WFfin; decide)

/-- C7 witness: the production-amounts characterization on the sample
technology with a dropped Output line. -/
theorem production_amounts_characterization_w :
    ∃ t fin2, evalTechnology "T" "P" designDropQ sampleFin true 1 = .ok (t, fin2) ∧
      ((∀ o ∈ t.output_amounts,
        ∃ d ∈ designOf designDropQ "T", d.Variable = "Output" ∧ d.Index = o.Index ∧
          o.Theoretical = d.Value * opHrsOf (mutFinOf sampleFin true) ∧
          ((((designOf designDropQ "T").filter fun r =>
                r.Variable = "Output efficiency") ≠ [] ∧
              ∃ er ∈ designOf designDropQ "T", er.Variable = "Output efficiency" ∧
                er.Index = o.Index ∧ o.Actual = o.Theoretical * er.Value) ∨
            (((designOf designDropQ "T").filter fun r =>
                r.Variable = "Output efficiency") = [] ∧
              o.Actual = o.Theoretical))) ∧
      ((((designOf designDropQ "T").filter fun r =>
          r.Variable = "Output efficiency") = []) →
        ∀ d ∈ designOf designDropQ "T", d.Variable = "Output" →
          ∃ o ∈ t.output_amounts, o.Index = d.Index) ∧
      (∀ d ∈ designOf designDropQ "T", d.Variable = "Output" →
        (∃ er ∈ designOf designDropQ "T", er.Variable = "Output efficiency" ∧
          er.Index = d.Index) →
        ∃ o ∈ t.output_amounts, o.Index = d.Index)) := by
  obtain ⟨⟨t, fin2⟩, hok⟩ := exists_ok_of_isOkE dropQSampleOk
  exact ⟨t, fin2, hok, production_amounts_characterization _ _ _ _ _ _ _ _ hok⟩

/-- C8 witness: the all-to-landfilling scenario on the sample dataset. -/
theorem landfilling_scenario_chain_w :
    ∃ s, buildScenario "Barrier Film" "Barrier film" 1 [("Landfilling", 1, 0)]
        sampleProducts sampleDesign sampleFin sampleStruct = .ok s ∧
      ∃ t0 t1, s.value_chain = [t0, t1] ∧
        t0.name = "Barrier Film" ++ ", initial" ∧ t1.name = "Landfilling" ∧
        s.total_cost = t0.production_cost + t1.production_cost := by
  obtain ⟨s, hs⟩ := exists_ok_of_isOkE landfillSampleOk
  exact ⟨s, hs, landfilling_scenario_chain _ _ _ _ _ _ _ hs⟩

/-- C9 witness: two sample scenarios with the same last entry report the
same virgin production, equal to the functional unit. -/
theorem virgin_prod_last_entry_w :
    ∃ s1 s2,
      buildScenario "Barrier Film" "Barrier film" 1 [("Landfilling", 1, 0)]
        sampleProducts sampleDesign sampleFin sampleStruct = .ok s1 ∧
      buildScenario "Barrier Film" "Barrier film" 1
        [("Incineration", 1/2, 0), ("Landfilling", 1, 0)]
        sampleProducts sampleDesign sampleFin sampleStruct = .ok s2 ∧
      s1.virgin_prod = s2.virgin_prod ∧
      (("Landfilling", (1 : ℚ), (0 : ℕ)).1 ≠ "Mechanical and Solvent Cleaning" →
        ("Landfilling", (1 : ℚ), (0 : ℕ)).1 ≠ "Solvent Treatment and Precipitation" →
        s1.virgin_prod = 1) ∧
      s1.value_chain.head?.map (fun t => t.output) = some s1.virgin_prod := by
  obtain ⟨s1, hs1⟩ := exists_ok_of_isOkE landfillSampleOk
  obtain ⟨s2, hs2⟩ := exists_ok_of_isOkE incLandfillSampleOk
  exact ⟨s1, s2, hs1, hs2,
    virgin_prod_last_entry _ _ _ _ _ _ _ [] [("Incineration", 1/2, 0)] _ _ _ hs1 hs2⟩

/-- C10 witness: the solvent-loop required outputs on the sample dataset. -/
theorem stp_required_outputs_w :
    ∃ s, buildScenario "Barrier Film" "Barrier film" 1
        [("Solvent Treatment and Precipitation", 1, 0)] sampleProducts sampleDesign
        sampleFin sampleStruct = .ok s ∧
      ∃ t0 tS tD rest, s.value_chain = t0 :: tS :: tD :: rest ∧
        tS.output = 7/10 * prodClosed 1 1 (1 * (1/2)) 0 / 1 ∧
        s.eol_polyethylene_prod = tS.output ∧
        tD.output = prodClosed 1 1 (1 * (1/2)) 0 := by
  obtain ⟨s, hs⟩ := exists_ok_of_isOkE stpSampleOk
  exact ⟨s, hs,
    stp_required_outputs _ _ _ _ _ _ _ _ _ _ _ _ _ (by rfl) (by rfl) (by rfl) hs⟩

end TEA
